import Mathlib

/-!
K66F device-management demo: embedding of `main.cpp`

The module-level globals of `main.cpp` become the fields of `App`; every
function of the file becomes a function on `App`.  Calls into the board
support package and the device-management client are recorded, in program
order, in `App.trace`, so that orderings ("close, then disconnect") and
frame conditions ("no increment happened") can be stated.

Conventions
* `int` and `int64_t` values are `Int`s, reduced with `wrap_int` and
  `wrap_int64` wherever the C++ expression does arithmetic.
* A function that dereferences one of the `M2MResource*` globals returns
  `Option`: `none` is the null-pointer dereference (the pointers are `NULL`
  until `main` has created the resources).
* `cloud_client` and `network` are not represented: the functions that use
  them are callbacks of the client or run after `main` has assigned both.
* `NVIC_SystemReset` does not return; it sets `App.halted`, and every driver
  (`client_error_run`, `Async.run_all`, `console_loop`) stops at a halted state.
-/

namespace K66F

/-! ## Machine integers -/

def INT64_MAX : Int := 2 ^ 63 - 1

def INT64_MIN : Int := -(2 ^ 63)

/-- Two's-complement reduction of an integer to `int64_t`. -/
def wrap_int64 (x : Int) : Int := (x + 2 ^ 63) % 2 ^ 64 - 2 ^ 63

/-- Two's-complement reduction of an integer to the 32-bit `int`. -/
def wrap_int (x : Int) : Int := (x + 2 ^ 31) % 2 ^ 32 - 2 ^ 31

/-- `const int MAX_ERROR_COUNT = 5;` -/
def MAX_ERROR_COUNT : Int := 5

/-- Constants of the SDK headers that `main.cpp` compares against; their
values are not part of this repository, so they are parameters. -/
structure SdkConsts where
  MBED_SUCCESS : Int
  NSAPI_ERROR_OK : Int
  FCC_STATUS_SUCCESS : Int
  FCC_STATUS_KCM_FILE_EXIST_ERROR : Int
  FCC_STATUS_CA_ERROR : Int
  ConnectNetworkError : Int
  ConnectDnsResolvingFailed : Int
  ConnectSecureConnectionFailed : Int
  ENABLE_TENSORFLOW : Bool
  deriving DecidableEq, Repr

/-- Sample values for concrete evaluations: the success statuses are 0 and
the three error codes are pairwise distinct.  Every general theorem is
stated for all `SdkConsts`. -/
def SdkConsts.mbed : SdkConsts where
  MBED_SUCCESS := 0
  NSAPI_ERROR_OK := 0
  FCC_STATUS_SUCCESS := 0
  FCC_STATUS_KCM_FILE_EXIST_ERROR := 6
  FCC_STATUS_CA_ERROR := 12
  ConnectNetworkError := 6
  ConnectDnsResolvingFailed := 12
  ConnectSecureConnectionFailed := 11
  ENABLE_TENSORFLOW := false

/-! ## Trace of external calls -/

/-- One constructor per `printf` site of `main.cpp`.  (The site after the
deregister resource's `set_execute_function` prints the same text as the one
after the post resource's.) -/
inductive Msg where
  | account_id
  | endpoint_name
  | device_id
  | counter_resource_set (v : Int)
  | put_update (v : Int)
  | post_executed
  | unregistering
  | post_deregister_executed
  | client_registered
  | client_registration_updated
  | client_unregistered
  | post_factory_reset_executed
  | client_error (err : Int)
  | max_error_count_reached (max : Int)
  | update_progress (percent : Nat)
  | mbed_trace_init_failed (status : Int)
  | application_ready
  | kv_init_storage_config_failed (status : Int)
  | connect_to_network
  | no_default_network
  | network_connect_failed (status : Int)
  | get_ip_address_failed (status : Int)
  | network_initialized
  | start_developer_flow
  | fcc_init_failed (status : Int)
  | fcc_developer_flow_failed (status : Int)
  | create_resources
  | get_res_set_value_failed
  | get_res_set_value_updated_function_failed
  | put_res_set_value_failed
  | put_res_set_value_updated_function_failed
  | post_res_set_execute_function_failed
  | deregister_res_set_execute_function_failed
  | register_client
  | enabling_tensorflow
  | tensorflow_disabled
  | storage_erased
  deriving DecidableEq, Repr

/-- The handlers `main.cpp` installs on resources and on the client. -/
inductive Handler where
  | get_res_update
  | put_res_update
  | execute_post
  | deregister
  | factory_reset
  | client_registered
  | client_unregistered
  | client_error
  | update_progress
  | client_registration_updated
  | value_increment
  deriving DecidableEq, Repr

/-- Externally visible actions, in the order the program performs them. -/
inductive Effect where
  | printf (m : Msg)
  | mutex_lock
  | mutex_unlock
  | set_value (object_id resource_id : Nat) (v : Int)
  | send_delayed_post_response (object_id resource_id : Nat)
  | cloud_client_close
  | network_disconnect
  | store_cloud_client_running (b : Bool)
  | kcm_factory_reset
  | fcc_storage_delete
  | sleep_for (ms : Nat)
  | NVIC_SystemReset
  | getchar
  | mbed_trace_init
  | kv_init_storage_config
  | get_default_instance
  | network_connect
  | get_ip_address
  | fcc_init
  | fcc_entropy_set
  | fcc_developer_flow
  | new_MbedCloudClient
  | cloud_client_init
  | create_resource (object_id instance_id resource_id : Nat)
  | install (object_id resource_id : Nat) (h : Handler)
  | set_delayed_response (object_id resource_id : Nat)
  | create_device_resource_factory_reset
  | on_registration_updated
  | add_objects
  | cloud_client_setup
  | thread_start_dispatch_forever
  | call_every (ms : Nat) (h : Handler)
  | tensor_thread_init
  | tensor_thread_start
  | flush_stdin_buffer
  deriving DecidableEq, Repr

/-! ## Resources -/

/-- The two operation modes `main.cpp` uses (`M2MBase::Operation`). -/
inductive Operation where
  | GET_PUT_ALLOWED
  | POST_ALLOWED
  deriving DecidableEq, Repr

/-- An `M2MResource` of the SDK, reduced to what `main.cpp` reads and
writes: its path, its operation mode, its integer value and the
delayed-response flag. -/
structure M2MResource where
  object_id : Nat
  instance_id : Nat
  resource_id : Nat
  operation : Operation
  value : Int
  delayed_response : Bool
  deriving DecidableEq, Repr

/-- `M2MInterfaceFactory::create_resource(list, object, instance, resource, INTEGER, op)`. -/
def create_resource (object_id instance_id resource_id : Nat) (op : Operation) : M2MResource where
  object_id := object_id
  instance_id := instance_id
  resource_id := resource_id
  operation := op
  value := 0
  delayed_response := false

def M2MResource.get_value_int (r : M2MResource) : Int := r.value

/-- Modelled from the spec: `M2MResource::set_value(int64_t)` is SDK code.
§4.1: "succeeds unless `handle` is not write-capable or `v` is out of
representable range"; on failure the stored value is left as it was. -/
def M2MResource.set_value (v : Int) (r : M2MResource) : Bool × M2MResource :=
  if r.operation = Operation.GET_PUT_ALLOWED ∧ INT64_MIN ≤ v ∧ v ≤ INT64_MAX then
    (true, { r with value := v })
  else
    (false, r)

/-! ## Application state -/

/-- The globals of `main.cpp`, the lock state of `value_increment_mutex`,
whether the device has been reset, and the trace. -/
structure App where
  cloud_client_running : Bool
  error_count : Int
  m2m_get_res : Option M2MResource
  m2m_put_res : Option M2MResource
  m2m_post_res : Option M2MResource
  m2m_deregister_res : Option M2MResource
  m2m_factory_reset_res : Option M2MResource
  value_increment_mutex : Bool
  halted : Bool
  trace : List Effect
  deriving DecidableEq, Repr

/-- The state at boot: the static initialisers of `main.cpp`. -/
def App.boot : App where
  cloud_client_running := true
  error_count := 0
  m2m_get_res := none
  m2m_put_res := none
  m2m_post_res := none
  m2m_deregister_res := none
  m2m_factory_reset_res := none
  value_increment_mutex := false
  halted := false
  trace := []

/-- Append external calls to the trace. -/
def App.log (s : App) (es : List Effect) : App := { s with trace := s.trace ++ es }

/-- Number of times the device reset was requested so far. -/
def App.resets (s : App) : Nat := s.trace.count Effect.NVIC_SystemReset

/-- Number of times the cloud client was closed so far. -/
def App.closes (s : App) : Nat := s.trace.count Effect.cloud_client_close

/-- `NVIC_SystemReset()`: requests the reset and never returns. -/
def NVIC_SystemReset (s : App) : App := { s.log [Effect.NVIC_SystemReset] with halted := true }

/-! ## The functions of `main.cpp` -/

def print_client_ids (s : App) : App :=
  s.log [Effect.printf Msg.account_id, Effect.printf Msg.endpoint_name,
    Effect.printf Msg.device_id]

/-- `value_increment_mutex.lock()`; `none` when the mutex is held, in which
case the caller cannot proceed.  (`value_increment` is the only user of the
mutex and never nests, so the recursion count of `rtos::Mutex` is always 0
or 1.) -/
def mutex_lock (s : App) : Option App :=
  if s.value_increment_mutex then none
  else some ({ s with value_increment_mutex := true }.log [Effect.mutex_lock])

/-- `value_increment_mutex.unlock()`. -/
def mutex_unlock (s : App) : App :=
  { s with value_increment_mutex := false }.log [Effect.mutex_unlock]

/-- `m2m_get_res->get_value_int()`. -/
def counter_read (s : App) : Option Int :=
  match s.m2m_get_res with
  | none => none
  | some r => some r.get_value_int

/-- `m2m_get_res->set_value(v)`; the `bool` result is discarded by the caller. -/
def counter_write (v : Int) (s : App) : Option App :=
  match s.m2m_get_res with
  | none => none
  | some r =>
    some ({ s with m2m_get_res := some (r.set_value v).2 }.log
      [Effect.set_value r.object_id r.resource_id v])

/-- `void value_increment(void)`: lock, `set_value(get_value_int() + 1)` in
`int64_t` arithmetic, unlock. -/
def value_increment (s : App) : Option App :=
  match mutex_lock s with
  | none => none
  | some s1 =>
    match counter_read s1 with
    | none => none
    | some v =>
      match counter_write (wrap_int64 (v + 1)) s1 with
      | none => none
      | some s2 => some (mutex_unlock s2)

/-- `void get_res_update(const char*)`: prints the counter cast to `int`. -/
def get_res_update (s : App) : Option App :=
  match s.m2m_get_res with
  | none => none
  | some r => some (s.log [Effect.printf (Msg.counter_resource_set (wrap_int r.get_value_int))])

/-- `void put_res_update(const char*)`. -/
def put_res_update (s : App) : Option App :=
  match s.m2m_put_res with
  | none => none
  | some r => some (s.log [Effect.printf (Msg.put_update (wrap_int r.get_value_int))])

/-- `void execute_post(void*)`. -/
def execute_post (s : App) : App := s.log [Effect.printf Msg.post_executed]

/-- `void deregister_client(void)`: print, then `cloud_client->close()`. -/
def deregister_client (s : App) : App :=
  (s.log [Effect.printf Msg.unregistering]).log [Effect.cloud_client_close]

/-- `void deregister(void*)`: print, send the delayed response, then
`deregister_client()`. -/
def deregister (s : App) : Option App :=
  match s.m2m_deregister_res with
  | none => none
  | some r =>
    some (deregister_client
      ((s.log [Effect.printf Msg.post_deregister_executed]).log
        [Effect.send_delayed_post_response r.object_id r.resource_id]))

/-- `void client_registered(void)`. -/
def client_registered (s : App) : App :=
  { print_client_ids (s.log [Effect.printf Msg.client_registered]) with error_count := 0 }

/-- `void client_registration_updated(void)`. -/
def client_registration_updated (s : App) : App :=
  { s.log [Effect.printf Msg.client_registration_updated] with error_count := 0 }

/-- `void client_unregistered(void)`: print, `network->disconnect()`, then
`cloud_client_running = false`. -/
def client_unregistered (s : App) : App :=
  { ((s.log [Effect.printf Msg.client_unregistered]).log [Effect.network_disconnect]).log
      [Effect.store_cloud_client_running false] with cloud_client_running := false }

/-- `void factory_reset(void*)`. -/
def factory_reset (s : App) : Option App :=
  match s.m2m_factory_reset_res with
  | none => none
  | some r =>
    some (((s.log [Effect.printf Msg.post_factory_reset_executed]).log
      [Effect.send_delayed_post_response r.object_id r.resource_id]).log
      [Effect.kcm_factory_reset])

/-- The test `err == ConnectNetworkError || err == ConnectDnsResolvingFailed ||
err == ConnectSecureConnectionFailed` of `client_error`. -/
def SdkConsts.transient (k : SdkConsts) (err : Int) : Bool :=
  err == k.ConnectNetworkError || err == k.ConnectDnsResolvingFailed ||
    err == k.ConnectSecureConnectionFailed

/-- `void client_error(int err)`. -/
def client_error (k : SdkConsts) (err : Int) (s : App) : App :=
  let s1 := s.log [Effect.printf (Msg.client_error err)]
  if k.transient err then
    let s2 := { s1 with error_count := wrap_int (s1.error_count + 1) }
    if s2.error_count = MAX_ERROR_COUNT then
      NVIC_SystemReset
        ((s2.log [Effect.printf (Msg.max_error_count_reached MAX_ERROR_COUNT)]).log
          [Effect.sleep_for 1000])
    else s2
  else s1

/-- The arithmetic of `update_progress`:
`(uint8_t)((uint64_t)progress * 100 / total)` on `uint32_t` arguments;
`none` is the division by zero. -/
def update_progress_percent (progress total : Nat) : Option Nat :=
  let p := progress % 2 ^ 32
  let t := total % 2 ^ 32
  if t = 0 then none
  else some ((p * 100 % 2 ^ 64 / t) % 2 ^ 8)

/-- `void update_progress(uint32_t progress, uint32_t total)`. -/
def update_progress (progress total : Nat) (s : App) : Option App :=
  match update_progress_percent progress total with
  | none => none
  | some percent => some (s.log [Effect.printf (Msg.update_progress percent)])

/-! ## The console loop of `main` -/

/-- How one pass through the body of `while (cloud_client_running)` ends:
`continue`, `break`, or inside `NVIC_SystemReset()`, which does not return. -/
inductive Ctl where
  | continue_loop
  | break_loop
  | no_return
  deriving DecidableEq, Repr

/-- The character code of `i`. -/
def CHAR_i : Int := 105

/-- The character code of `r`. -/
def CHAR_r : Int := 114

/-- Ctrl+C, the `0x03` of the loop. -/
def CTRL_C : Int := 3

/-- What `getchar()` returns at end of input. -/
def EOF : Int := -1

/-- The body of the console loop for one value `in_char` returned by
`getchar()`.  `fcc_storage_delete` is the status that call would return; the
code casts it to `void`. -/
def console_step (fcc_storage_delete : Int) (in_char : Int) (s : App) : Option (App × Ctl) :=
  let s0 := s.log [Effect.getchar]
  if in_char = CHAR_i then
    some (print_client_ids s0, Ctl.continue_loop)
  else if in_char = CHAR_r then
    let _discarded := fcc_storage_delete
    some (NVIC_SystemReset
      (((s0.log [Effect.fcc_storage_delete]).log [Effect.printf Msg.storage_erased]).log
        [Effect.sleep_for 1000]), Ctl.no_return)
  else if in_char > 0 ∧ in_char ≠ CTRL_C then
    match value_increment s0 with
    | none => none
    | some s1 => some (s1, Ctl.continue_loop)
  else
    some (deregister_client s0, Ctl.break_loop)

/-- Work done by the other tasks (the event-queue worker and the client)
while the main task is blocked in `getchar()`: each constructor is one
invocation of the handler of the same name. -/
inductive Async where
  | periodic_value_increment
  | client_registered
  | client_registration_updated
  | client_unregistered
  | client_error (err : Int)
  | update_progress (progress total : Nat)
  | get_res_update
  | put_res_update
  | execute_post
  | deregister
  | factory_reset
  deriving DecidableEq, Repr

/-- Run one handler. -/
def Async.run (k : SdkConsts) : Async → App → Option App
  | Async.periodic_value_increment, s => K66F.value_increment s
  | Async.client_registered, s => some (K66F.client_registered s)
  | Async.client_registration_updated, s => some (K66F.client_registration_updated s)
  | Async.client_unregistered, s => some (K66F.client_unregistered s)
  | Async.client_error err, s => some (K66F.client_error k err s)
  | Async.update_progress progress total, s => K66F.update_progress progress total s
  | Async.get_res_update, s => K66F.get_res_update s
  | Async.put_res_update, s => K66F.put_res_update s
  | Async.execute_post, s => some (K66F.execute_post s)
  | Async.deregister, s => K66F.deregister s
  | Async.factory_reset, s => K66F.factory_reset s

/-- Run handlers one after the other; nothing runs once the device has been reset. -/
def Async.run_all (k : SdkConsts) : List Async → App → Option App
  | [], s => some s
  | a :: rest, s =>
    if s.halted then some s
    else
      match a.run k s with
      | none => none
      | some s1 => Async.run_all k rest s1

/-- A run of `client_error` calls, one per error code, stopping at the reset. -/
def client_error_run (k : SdkConsts) : List Int → App → App
  | [], s => s
  | err :: rest, s =>
    if s.halted then s else client_error_run k rest (client_error k err s)

/-- `n` firings of the periodic `value_increment` callback. -/
def periodic_firings : Nat → App → Option App
  | 0, s => some s
  | n + 1, s =>
    match periodic_firings n s with
    | none => none
    | some s1 => value_increment s1

/-- One blocking `getchar()`: what the other tasks do meanwhile, the
character returned, and the status `fcc_storage_delete()` would return. -/
structure ConsoleRead where
  async : List Async
  in_char : Int
  fcc_storage_delete : Int
  deriving DecidableEq, Repr

/-- How the process ends: `main` returns a code, or the device resets. -/
inductive Exit where
  | returned (code : Int)
  | device_reset
  deriving DecidableEq, Repr

/-- One iteration of the loop, entered with `cloud_client_running` true. -/
def console_iteration (k : SdkConsts) (rd : ConsoleRead) (s : App) : Option (App × Ctl) :=
  match Async.run_all k rd.async s with
  | none => none
  | some s1 =>
    if s1.halted then some (s1, Ctl.no_return)
    else console_step rd.fcc_storage_delete rd.in_char s1

/-- `while (cloud_client_running) {...} return 0;` over the successive
reads; when the list is exhausted `getchar()` reports end of input. -/
def console_loop (k : SdkConsts) : List ConsoleRead → App → Option (App × Exit)
  | [], s =>
    if s.cloud_client_running then
      match console_step 0 EOF s with
      | none => none
      | some (s1, Ctl.no_return) => some (s1, Exit.device_reset)
      | some (s1, _) => some (s1, Exit.returned 0)
    else some (s, Exit.returned 0)
  | rd :: rest, s =>
    if s.cloud_client_running then
      match console_iteration k rd s with
      | none => none
      | some (s1, Ctl.continue_loop) => console_loop k rest s1
      | some (s1, Ctl.break_loop) => some (s1, Exit.returned 0)
      | some (s1, Ctl.no_return) => some (s1, Exit.device_reset)
    else some (s, Exit.returned 0)

/-! ## Startup -/

/-- Results of the external calls `main` makes before the console loop. -/
structure Startup where
  mbed_trace_init : Int
  kv_init_storage_config : Int
  default_network : Bool
  network_connect : Int
  get_ip_address : Int
  fcc_init : Int
  fcc_developer_flow : Int
  get_res_set_value_updated_function : Bool
  put_res_set_value_updated_function : Bool
  post_res_set_execute_function : Bool
  deregister_res_set_execute_function : Bool
  factory_reset_res : Bool
  deriving DecidableEq, Repr

/-- Lines 159-208 of `main`: trace, storage, network and provisioning. The
second component is the code of an early `return`. -/
def startup_platform (k : SdkConsts) (e : Startup) : App × Option Int :=
  let s := App.boot.log [Effect.mbed_trace_init]
  if e.mbed_trace_init ≠ 0 then
    (s.log [Effect.printf (Msg.mbed_trace_init_failed e.mbed_trace_init)], some (-1))
  else
  let s := (s.log [Effect.printf Msg.application_ready]).log [Effect.kv_init_storage_config]
  if e.kv_init_storage_config ≠ k.MBED_SUCCESS then
    (s.log [Effect.printf (Msg.kv_init_storage_config_failed e.kv_init_storage_config)],
      some (-1))
  else
  let s := (s.log [Effect.printf Msg.connect_to_network]).log [Effect.get_default_instance]
  if e.default_network = false then
    (s.log [Effect.printf Msg.no_default_network], some (-1))
  else
  let s := s.log [Effect.network_connect]
  if e.network_connect ≠ k.NSAPI_ERROR_OK then
    (s.log [Effect.printf (Msg.network_connect_failed e.network_connect)], some (-1))
  else
  let s := s.log [Effect.get_ip_address]
  if e.get_ip_address ≠ 0 then
    (s.log [Effect.printf (Msg.get_ip_address_failed e.get_ip_address)], some (-2))
  else
  let s := ((s.log [Effect.printf Msg.network_initialized]).log
    [Effect.printf Msg.start_developer_flow]).log [Effect.fcc_init]
  if e.fcc_init ≠ k.FCC_STATUS_SUCCESS then
    (s.log [Effect.printf (Msg.fcc_init_failed e.fcc_init)], some (-1))
  else
  let s := (s.log [Effect.fcc_entropy_set]).log [Effect.fcc_developer_flow]
  if e.fcc_developer_flow ≠ k.FCC_STATUS_SUCCESS ∧
      e.fcc_developer_flow ≠ k.FCC_STATUS_KCM_FILE_EXIST_ERROR ∧
      e.fcc_developer_flow ≠ k.FCC_STATUS_CA_ERROR then
    (s.log [Effect.printf (Msg.fcc_developer_flow_failed e.fcc_developer_flow)], some (-1))
  else
    (s, none)

/-- Lines 210-267 of `main`: the client object and the five resources. -/
def startup_resources (e : Startup) (s : App) : App × Option Int :=
  let s := ((s.log [Effect.new_MbedCloudClient]).log [Effect.cloud_client_init]).log
    [Effect.printf Msg.create_resources]
  -- GET resource 3200/0/5501
  let w := (create_resource 3200 0 5501 Operation.GET_PUT_ALLOWED).set_value 0
  let s := { s with m2m_get_res := some w.2 }.log
    [Effect.create_resource 3200 0 5501, Effect.set_value 3200 5501 0]
  if w.1 ≠ true then
    (s.log [Effect.printf Msg.get_res_set_value_failed], some (-1))
  else
  let s := s.log [Effect.install 3200 5501 Handler.get_res_update]
  if e.get_res_set_value_updated_function ≠ true then
    (s.log [Effect.printf Msg.get_res_set_value_updated_function_failed], some (-1))
  else
  -- PUT resource 3201/0/5853
  let w := (create_resource 3201 0 5853 Operation.GET_PUT_ALLOWED).set_value 0
  let s := { s with m2m_put_res := some w.2 }.log
    [Effect.create_resource 3201 0 5853, Effect.set_value 3201 5853 0]
  if w.1 ≠ true then
    (s.log [Effect.printf Msg.put_res_set_value_failed], some (-1))
  else
  let s := s.log [Effect.install 3201 5853 Handler.put_res_update]
  if e.put_res_set_value_updated_function ≠ true then
    (s.log [Effect.printf Msg.put_res_set_value_updated_function_failed], some (-1))
  else
  -- POST resource 3201/0/5850
  let s := { s with m2m_post_res := some (create_resource 3201 0 5850 Operation.POST_ALLOWED) }.log
    [Effect.create_resource 3201 0 5850, Effect.install 3201 5850 Handler.execute_post]
  if e.post_res_set_execute_function ≠ true then
    (s.log [Effect.printf Msg.post_res_set_execute_function_failed], some (-1))
  else
  -- POST resource 5000/0/1 to trigger deregister, with delayed response
  let r := create_resource 5000 0 1 Operation.POST_ALLOWED
  let r := { r with delayed_response := true }
  let s := { s with m2m_deregister_res := some r }.log
    [Effect.create_resource 5000 0 1, Effect.set_delayed_response 5000 1,
      Effect.install 5000 1 Handler.deregister]
  if e.deregister_res_set_execute_function ≠ true then
    (s.log [Effect.printf Msg.deregister_res_set_execute_function_failed], some (-1))
  else
  -- optional device resource 3/0/5
  let s := s.log [Effect.create_device_resource_factory_reset]
  if e.factory_reset_res then
    ({ s with m2m_factory_reset_res := some (create_resource 3 0 5 Operation.POST_ALLOWED) }.log
      [Effect.install 3 5 Handler.factory_reset], none)
  else
    (s, none)

/-- Lines 269-289 of `main`: registration, the dispatcher thread, the
periodic increment, the optional inference thread, the stdin flush. -/
def startup_register (k : SdkConsts) (s : App) : App :=
  let s := (((((s.log [Effect.printf Msg.register_client]).log
    [Effect.on_registration_updated]).log [Effect.add_objects]).log
    [Effect.cloud_client_setup]).log [Effect.thread_start_dispatch_forever]).log
    [Effect.call_every 5000 Handler.value_increment]
  let s :=
    if k.ENABLE_TENSORFLOW then
      ((s.log [Effect.printf Msg.enabling_tensorflow]).log [Effect.tensor_thread_init]).log
        [Effect.tensor_thread_start]
    else s.log [Effect.printf Msg.tensorflow_disabled]
  s.log [Effect.flush_stdin_buffer]

/-- Everything `main` does before the console loop. -/
def startup (k : SdkConsts) (e : Startup) : App × Option Int :=
  match startup_platform k e with
  | (s, some code) => (s, some code)
  | (s, none) =>
    match startup_resources e s with
    | (s1, some code) => (s1, some code)
    | (s1, none) => (startup_register k s1, none)

/-- `int main(void)`. -/
def main (k : SdkConsts) (e : Startup) (input : List ConsoleRead) : Option (App × Exit) :=
  match startup k e with
  | (s, some code) => some (s, Exit.returned code)
  | (s, none) => console_loop k input s

/-! ## Interleavings of `value_increment`

`value_increment` is called from two tasks: the main task (console loop) and
the event-queue worker (`queue.call_every`).  Each task runs the four
statements of the function one at a time; a schedule says which task moves
next.  A task whose `lock()` finds the mutex held does not move. -/

/-- The two tasks that call `value_increment`. -/
inductive Caller where
  | main_task
  | worker_task
  deriving DecidableEq, Repr

/-- Position of a task inside `value_increment`: before `lock()`, before
`get_value_int()`, before `set_value(v + 1)` with `v` already read, before
`unlock()`. -/
inductive Pc where
  | at_lock
  | at_read
  | at_write (v : Int)
  | at_unlock
  deriving DecidableEq, Repr

/-- A task: the calls of `value_increment` it has issued and not yet
finished, and where it stands in the current one. -/
structure Thread where
  calls : Nat
  pc : Pc
  deriving DecidableEq, Repr

/-- One statement of `value_increment` executed by a task. -/
def Thread.step (th : Thread) (s : App) : Option (Thread × App) :=
  if th.calls = 0 then some (th, s)
  else
    match th.pc with
    | Pc.at_lock =>
      match mutex_lock s with
      | none => some (th, s)
      | some s1 => some ({ th with pc := Pc.at_read }, s1)
    | Pc.at_read =>
      match counter_read s with
      | none => none
      | some v => some ({ th with pc := Pc.at_write v }, s)
    | Pc.at_write v =>
      match counter_write (wrap_int64 (v + 1)) s with
      | none => none
      | some s1 => some ({ th with pc := Pc.at_unlock }, s1)
    | Pc.at_unlock => some ({ calls := th.calls - 1, pc := Pc.at_lock }, mutex_unlock s)

/-- The shared state and the two tasks. -/
structure Conc where
  app : App
  main_task : Thread
  worker_task : Thread
  deriving DecidableEq, Repr

/-- The other task. -/
def Caller.other : Caller → Caller
  | Caller.main_task => Caller.worker_task
  | Caller.worker_task => Caller.main_task

/-- The state of a task. -/
def Conc.get (c : Conc) : Caller → Thread
  | Caller.main_task => c.main_task
  | Caller.worker_task => c.worker_task

/-- Store the state of a task together with the shared state. -/
def Conc.set (c : Conc) (t : Caller) (th : Thread) (s : App) : Conc :=
  match t with
  | Caller.main_task => { c with app := s, main_task := th }
  | Caller.worker_task => { c with app := s, worker_task := th }

/-- The task chosen by the scheduler executes one statement. -/
def Conc.step (c : Conc) (t : Caller) : Option Conc :=
  match (c.get t).step c.app with
  | none => none
  | some (th, s) => some (c.set t th s)

/-- Run a schedule. -/
def Conc.run : List Caller → Conc → Option Conc
  | [], c => some c
  | t :: rest, c =>
    match c.step t with
    | none => none
    | some c1 => Conc.run rest c1

/-- The main task issues `m` calls and the worker `w` calls, none started. -/
def Conc.start (s : App) (m w : Nat) : Conc where
  app := s
  main_task := { calls := m, pc := Pc.at_lock }
  worker_task := { calls := w, pc := Pc.at_lock }

/-- Every issued call has returned. -/
def Conc.finished (c : Conc) : Prop := c.main_task.calls = 0 ∧ c.worker_task.calls = 0

/-! ## Vocabulary of the statements -/

/-- A start-up in which every external call succeeds and the optional
factory-reset resource exists, for the constants of `SdkConsts.mbed`. -/
def Startup.all_ok : Startup where
  mbed_trace_init := 0
  kv_init_storage_config := 0
  default_network := true
  network_connect := 0
  get_ip_address := 0
  fcc_init := 0
  fcc_developer_flow := 0
  get_res_set_value_updated_function := true
  put_res_set_value_updated_function := true
  post_res_set_execute_function := true
  deregister_res_set_execute_function := true
  factory_reset_res := true

/-- Console output, as opposed to an action on the device or the client. -/
def Effect.is_printf : Effect → Bool
  | Effect.printf _ => true
  | _ => false

/-- The actions of a trace: everything but console output. -/
def actions (tr : List Effect) : List Effect := tr.filter (fun e => !e.is_printf)

/-- The terminal sequence in the words of the specification (§8, property 5):
"close transport → disconnect network → flag loop to stop". -/
def spec_terminal_sequence : List Effect :=
  [Effect.cloud_client_close, Effect.network_disconnect, Effect.store_cloud_client_running false]

/-- The counter resource as `main` creates it, holding `v`. -/
def counter_resource (v : Int) : M2MResource :=
  { create_resource 3200 0 5501 Operation.GET_PUT_ALLOWED with value := v }

/-- A running application whose counter resource holds `v`. -/
def App.with_counter (v : Int) : App :=
  { App.boot with m2m_get_res := some (counter_resource v) }

/-- A task is inside the critical section: past `lock()`, not past `unlock()`. -/
def Thread.inside (th : Thread) : Bool :=
  match th.pc with
  | Pc.at_lock => false
  | _ => true

/-- Writes a task still has to perform. -/
def Thread.remaining (th : Thread) : Int :=
  match th.pc with
  | Pc.at_unlock => (th.calls : Int) - 1
  | _ => (th.calls : Int)

/-- Statements a task still has to execute. -/
def Thread.steps_left (th : Thread) : Nat :=
  match th.pc with
  | Pc.at_lock => 4 * th.calls
  | Pc.at_read => 4 * th.calls - 1
  | Pc.at_write _ => 4 * th.calls - 2
  | Pc.at_unlock => 4 * th.calls - 3

/-- What the mutex maintains for a task `th`, the other task `ot` and the
counter resource `r`: at most one task is inside, the mutex is held exactly
then, a value read inside is still the stored one, and the stored value plus
the writes to come is the constant `target`. -/
structure Inv (target : Int) (s : App) (th ot : Thread) (r : M2MResource) : Prop where
  res : s.m2m_get_res = some r
  op : r.operation = Operation.GET_PUT_ALLOWED
  lo : INT64_MIN ≤ r.value
  hi : target ≤ INT64_MAX
  th_calls : th.inside = true → th.calls ≠ 0
  ot_calls : ot.inside = true → ot.calls ≠ 0
  th_read : ∀ v, th.pc = Pc.at_write v → v = r.value
  ot_read : ∀ v, ot.pc = Pc.at_write v → v = r.value
  mutex : s.value_increment_mutex = (th.inside || ot.inside)
  excl : ¬ (th.inside = true ∧ ot.inside = true)
  sum : r.value + th.remaining + ot.remaining = target

/-! ## Facts about the arithmetic -/

theorem wrap_int64_of_range (x : Int) (h1 : INT64_MIN ≤ x) (h2 : x ≤ INT64_MAX) :
    wrap_int64 x = x := by
  unfold wrap_int64
  unfold INT64_MIN at h1
  unfold INT64_MAX at h2
  norm_num at h1 h2 ⊢
  omega

theorem wrap_int64_range (x : Int) : INT64_MIN ≤ wrap_int64 x ∧ wrap_int64 x ≤ INT64_MAX := by
  unfold wrap_int64 INT64_MIN INT64_MAX
  norm_num
  omega

theorem wrap_int_of_range (x : Int) (h1 : -(2 ^ 31) ≤ x) (h2 : x < 2 ^ 31) :
    wrap_int x = x := by
  unfold wrap_int
  norm_num at h1 h2 ⊢
  omega

/-! ## Update progress (C10) -/

/-- C10: for 32-bit `progress` and `total` with `0 < total` and
`progress ≤ total`, `update_progress` computes `progress * 100 / total`
exactly: the 64-bit product does not overflow, the division is defined,
the quotient is at most 100 (so the `uint8_t` cast keeps it) and it is 100
exactly when `progress = total`.  Outside the precondition, `total = 0`
divides by zero and `progress > total` can be truncated by the cast
(256 * 100 / 100 = 256 becomes 0). -/
theorem C10_update_progress_percent (progress total : Nat)
    (hp : progress < 2 ^ 32) (ht : total < 2 ^ 32) (h0 : 0 < total) (hle : progress ≤ total) :
    progress * 100 < 2 ^ 64 ∧
    update_progress_percent progress total = some (progress * 100 / total) ∧
    progress * 100 / total ≤ 100 ∧
    (progress * 100 / total = 100 ↔ progress = total) ∧
    (∀ s : App, update_progress progress total s =
      some (s.log [Effect.printf (Msg.update_progress (progress * 100 / total))])) ∧
    (∀ p : Nat, update_progress_percent p 0 = none) ∧
    update_progress_percent 256 100 = some 0 := by
  have hq : progress * 100 / total ≤ 100 := by
    apply Nat.div_le_of_le_mul
    nlinarith
  have hprod : progress * 100 < 2 ^ 64 := by
    norm_num at hp ⊢
    omega
  have hval : update_progress_percent progress total = some (progress * 100 / total) := by
    unfold update_progress_percent
    have h1 : progress % 2 ^ 32 = progress := Nat.mod_eq_of_lt hp
    have h2 : total % 2 ^ 32 = total := Nat.mod_eq_of_lt ht
    have h3 : progress * 100 % 2 ^ 64 = progress * 100 := Nat.mod_eq_of_lt hprod
    have h4 : progress * 100 / total % 2 ^ 8 = progress * 100 / total :=
      Nat.mod_eq_of_lt (by norm_num; omega)
    simp only [h1, h2, h3, h4]
    have : total ≠ 0 := by omega
    simp [this]
  refine ⟨hprod, hval, hq, ?_, ?_, ?_, ?_⟩
  · constructor
    · intro h
      have h5 : 100 * total ≤ progress * 100 := by
        have := (Nat.le_div_iff_mul_le h0).mp (le_of_eq h.symm)
        omega
      omega
    · intro h
      subst h
      exact Nat.mul_div_cancel_left 100 h0
  · intro s
    unfold update_progress
    rw [hval]
  · intro p
    unfold update_progress_percent
    simp
  · decide

/-- Witness for C10: 50 of 200 is 25 percent. -/
theorem C10_update_progress_percent_witness :
    update_progress_percent 50 200 = some (50 * 100 / 200) :=
  (C10_update_progress_percent 50 200 (by norm_num) (by norm_num) (by norm_num)
    (by norm_num)).2.1

/-! ## The error counter (C1, C7) -/

theorem client_error_run_halted (k : SdkConsts) (errs : List Int) (s : App)
    (h : s.halted = true) : client_error_run k errs s = s := by
  cases errs with
  | nil => rfl
  | cons e rest => simp [client_error_run, h]

/-- A transient error below the threshold only counts. -/
theorem client_error_counts (k : SdkConsts) (err : Int) (s : App) (c : Nat)
    (ht : k.transient err = true) (hc : s.error_count = c) (hlt : c + 1 < 5) :
    client_error k err s =
      { s.log [Effect.printf (Msg.client_error err)] with error_count := ((c + 1 : Nat) : Int) } := by
  have hw : wrap_int ((c : Int) + 1) = (c : Int) + 1 :=
    wrap_int_of_range _ (by norm_num; omega) (by norm_num; omega)
  have hne : ((c : Int) + 1) ≠ MAX_ERROR_COUNT := by
    unfold MAX_ERROR_COUNT
    omega
  unfold client_error
  simp only [ht, if_true, App.log, hc, hw]
  rw [if_neg hne]
  simp

/-- The transient error that brings the count to `MAX_ERROR_COUNT` resets the device. -/
theorem client_error_resets (k : SdkConsts) (err : Int) (s : App)
    (ht : k.transient err = true) (hc : s.error_count = 4) :
    (client_error k err s).halted = true ∧
      (client_error k err s).resets = s.resets + 1 := by
  have hw : wrap_int ((4 : Int) + 1) = 5 := by
    unfold wrap_int
    norm_num
  unfold client_error
  simp only [ht, if_true, App.log, hc, hw, MAX_ERROR_COUNT]
  simp [NVIC_SystemReset, App.log, App.resets, List.count_append]

theorem client_error_run_from (k : SdkConsts) (errs : List Int) :
    ∀ (s : App) (c : Nat), s.halted = false → s.error_count = c → c < 5 →
      (∀ e ∈ errs, k.transient e = true) →
      (client_error_run k errs s).resets =
          s.resets + (if 5 ≤ c + errs.length then 1 else 0) ∧
        ((client_error_run k errs s).halted = true ↔ 5 ≤ c + errs.length) := by
  induction errs with
  | nil =>
    intro s c hh _ hlt _
    have : ¬ (5 ≤ c) := by omega
    simp [client_error_run, hh, this]
  | cons e rest ih =>
    intro s c hh hc hlt htr
    have hte : k.transient e = true := htr e (List.mem_cons_self _ _)
    have htr2 : ∀ x ∈ rest, k.transient x = true :=
      fun x hx => htr x (List.mem_cons_of_mem _ hx)
    have hstep : client_error_run k (e :: rest) s =
        client_error_run k rest (client_error k e s) := by
      simp [client_error_run, hh]
    rw [hstep]
    by_cases h4 : c = 4
    · subst h4
      have hr := client_error_resets k e s hte (by simpa using hc)
      rw [client_error_run_halted k rest _ hr.1]
      have h5 : 5 ≤ 4 + (e :: rest).length := by
        simp only [List.length_cons]
        omega
      rw [if_pos h5]
      exact ⟨hr.2, ⟨fun _ => h5, fun _ => hr.1⟩⟩
    · have hlt2 : c + 1 < 5 := by omega
      have hs := client_error_counts k e s c hte hc hlt2
      have hres : (client_error k e s).resets = s.resets := by
        rw [hs]
        simp [App.resets, App.log, List.count_append]
      have hh2 : (client_error k e s).halted = false := by
        rw [hs]
        simpa [App.log] using hh
      have hc2 : (client_error k e s).error_count = ((c + 1 : Nat) : Int) := by
        rw [hs]
      have := ih (client_error k e s) (c + 1) hh2 hc2 hlt2 htr2
      rw [hres] at this
      have hlen : c + 1 + rest.length = c + (e :: rest).length := by
        simp
        omega
      rw [hlen] at this
      exact this

/-- C1: from `error_count = 0`, a run of `client_error` calls with transient
codes requests the device reset exactly once when the run has at least
`MAX_ERROR_COUNT` (5) calls and never when it is shorter; this holds for
every initial segment of the run, so the reset happens on the 5th call and
on no earlier one.  `client_registered` and `client_registration_updated`
both leave `error_count = 0`, and a run of `MAX_ERROR_COUNT - 1` transient
errors after either of them requests no reset. -/
theorem C1_reset_on_fifth_transient_error (k : SdkConsts) (s : App) (errs : List Int)
    (hrun : s.halted = false) (htr : ∀ e ∈ errs, k.transient e = true) :
    (s.error_count = 0 → ∀ n : Nat,
      (client_error_run k (errs.take n) s).resets =
          s.resets + (if MAX_ERROR_COUNT ≤ ((errs.take n).length : Int) then 1 else 0) ∧
        ((client_error_run k (errs.take n) s).halted = true ↔
          MAX_ERROR_COUNT ≤ ((errs.take n).length : Int))) ∧
    (client_registered s).error_count = 0 ∧
    (client_registration_updated s).error_count = 0 ∧
    ((errs.length : Int) = MAX_ERROR_COUNT - 1 →
      (client_error_run k errs (client_registered s)).resets = s.resets ∧
      (client_error_run k errs (client_registered s)).halted = false ∧
      (client_error_run k errs (client_registration_updated s)).resets = s.resets ∧
      (client_error_run k errs (client_registration_updated s)).halted = false) := by
  refine ⟨?_, rfl, rfl, ?_⟩
  · intro h0 n
    have htr2 : ∀ e ∈ errs.take n, k.transient e = true :=
      fun e he => htr e (List.mem_of_mem_take he)
    have := client_error_run_from k (errs.take n) s 0 hrun (by simpa using h0) (by norm_num) htr2
    simp only [zero_add] at this
    unfold MAX_ERROR_COUNT
    have hcast : ((5 : Int) ≤ ((errs.take n).length : Int)) ↔ 5 ≤ (errs.take n).length := by
      omega
    simp only [hcast]
    exact this
  · intro hlen
    unfold MAX_ERROR_COUNT at hlen
    have hl : errs.length = 4 := by omega
    have h1 := client_error_run_from k errs (client_registered s) 0
      (by simpa [client_registered, print_client_ids, App.log] using hrun) rfl (by norm_num) htr
    have h2 := client_error_run_from k errs (client_registration_updated s) 0
      (by simpa [client_registration_updated, App.log] using hrun) rfl (by norm_num) htr
    have hr1 : (client_registered s).resets = s.resets := by
      simp [client_registered, print_client_ids, App.log, App.resets, List.count_append]
    have hr2 : (client_registration_updated s).resets = s.resets := by
      simp [client_registration_updated, App.log, App.resets, List.count_append]
    rw [hl, hr1] at h1
    rw [hl, hr2] at h2
    norm_num at h1 h2
    exact ⟨h1.1, h1.2, h2.1, h2.2⟩

/-- Witness for C1: five network errors from boot reset the device once. -/
theorem C1_reset_on_fifth_transient_error_witness :
    (client_error_run SdkConsts.mbed [6, 12, 11, 6, 6] App.boot).resets = 1 ∧
    (client_error_run SdkConsts.mbed ([6, 12, 11, 6, 6].take 4) App.boot).resets = 0 := by
  have h := (C1_reset_on_fifth_transient_error SdkConsts.mbed App.boot [6, 12, 11, 6, 6] rfl
    (by decide)).1 rfl
  have h5 := (h 5).1
  have h4 := (h 4).1
  simp [MAX_ERROR_COUNT, App.resets, App.boot] at h5 h4
  simp [App.resets] 
  exact ⟨h5, h4⟩

/-- C7: an error code other than the three transient ones leaves
`error_count` as it was and requests no reset, whatever `error_count` is;
the call only prints the error. -/
theorem C7_other_errors_do_not_count (k : SdkConsts) (err : Int) (s : App)
    (h1 : err ≠ k.ConnectNetworkError) (h2 : err ≠ k.ConnectDnsResolvingFailed)
    (h3 : err ≠ k.ConnectSecureConnectionFailed) :
    client_error k err s = s.log [Effect.printf (Msg.client_error err)] ∧
    (client_error k err s).error_count = s.error_count ∧
    (client_error k err s).resets = s.resets ∧
    (client_error k err s).halted = s.halted := by
  have ht : k.transient err = false := by
    simp [SdkConsts.transient, h1, h2, h3]
  have he : client_error k err s = s.log [Effect.printf (Msg.client_error err)] := by
    simp [client_error, ht]
  rw [he]
  simp [App.log, App.resets, List.count_append]

/-- Witness for C7: a timeout (code 5) at `error_count = 4` changes nothing. -/
theorem C7_other_errors_do_not_count_witness :
    (client_error SdkConsts.mbed 5 { App.boot with error_count := 4 }).error_count = 4 :=
  (C7_other_errors_do_not_count SdkConsts.mbed 5 { App.boot with error_count := 4 }
    (by decide) (by decide) (by decide)).2.1

/-! ## `value_increment` run to completion -/

/-- With the mutex free and the counter resource in place, `value_increment`
returns, stores the `int64_t` successor and leaves the mutex free. -/
theorem value_increment_eq (s : App) (r : M2MResource) (hr : s.m2m_get_res = some r)
    (hop : r.operation = Operation.GET_PUT_ALLOWED) (hm : s.value_increment_mutex = false) :
    value_increment s = some
      { s with
        m2m_get_res := some { r with value := wrap_int64 (r.value + 1) }
        value_increment_mutex := false
        trace := s.trace ++ [Effect.mutex_lock,
          Effect.set_value r.object_id r.resource_id (wrap_int64 (r.value + 1)),
          Effect.mutex_unlock] } := by
  have hrg := wrap_int64_range (r.value + 1)
  simp [value_increment, mutex_lock, hm, counter_read, counter_write, App.log, hr,
    M2MResource.get_value_int, M2MResource.set_value, hop, hrg.1, hrg.2, mutex_unlock]

/-- Below `INT64_MAX` the stored successor is the mathematical one. -/
theorem value_increment_succ (s : App) (r : M2MResource) (hr : s.m2m_get_res = some r)
    (hop : r.operation = Operation.GET_PUT_ALLOWED) (hm : s.value_increment_mutex = false)
    (hlo : INT64_MIN ≤ r.value) (hhi : r.value < INT64_MAX) :
    value_increment s = some
      { s with
        m2m_get_res := some { r with value := r.value + 1 }
        value_increment_mutex := false
        trace := s.trace ++ [Effect.mutex_lock,
          Effect.set_value r.object_id r.resource_id (r.value + 1),
          Effect.mutex_unlock] } := by
  have hw : wrap_int64 (r.value + 1) = r.value + 1 :=
    wrap_int64_of_range _ (by omega) (by omega)
  rw [value_increment_eq s r hr hop hm, hw]

/-! ## The console loop (C4, C5, C8) -/

theorem console_step_fallthrough (fsd c : Int) (s : App)
    (hc : c < 0 ∨ c = CTRL_C ∨ (c ≠ CHAR_i ∧ c ≠ CHAR_r ∧ ¬ (c > 0 ∧ c ≠ CTRL_C))) :
    console_step fsd c s = some (deregister_client (s.log [Effect.getchar]), Ctl.break_loop) := by
  have h1 : c ≠ CHAR_i := by
    unfold CHAR_i
    unfold CTRL_C at hc
    omega
  have h2 : c ≠ CHAR_r := by
    unfold CHAR_r
    unfold CTRL_C at hc
    omega
  have h3 : ¬ (c > 0 ∧ c ≠ CTRL_C) := by
    unfold CTRL_C at hc ⊢
    omega
  simp [console_step, h1, h2, h3]

/-! ## What start-up establishes -/

theorem set_value_zero_created (a b c : Nat) :
    (create_resource a b c Operation.GET_PUT_ALLOWED).set_value 0 =
      (true, create_resource a b c Operation.GET_PUT_ALLOWED) := by
  simp [M2MResource.set_value, create_resource, INT64_MIN, INT64_MAX]

/-- The platform stage touches nothing but the trace. -/
theorem startup_platform_frame (k : SdkConsts) (e : Startup) :
    { (startup_platform k e).1 with trace := [] } = App.boot := by
  unfold startup_platform
  dsimp only
  split_ifs <;> simp [App.log, App.boot]

/-- The resource stage leaves the flags, the counter and the mutex alone;
when it succeeds the counter resource exists and holds 0. -/
theorem startup_resources_frame (e : Startup) (s : App) :
    (startup_resources e s).1.cloud_client_running = s.cloud_client_running ∧
    (startup_resources e s).1.halted = s.halted ∧
    (startup_resources e s).1.error_count = s.error_count ∧
    (startup_resources e s).1.value_increment_mutex = s.value_increment_mutex ∧
    ((startup_resources e s).2 = none →
      (startup_resources e s).1.m2m_get_res = some (counter_resource 0)) := by
  unfold startup_resources
  simp only [set_value_zero_created]
  split_ifs <;> simp [App.log, counter_resource, create_resource]

theorem startup_register_frame (k : SdkConsts) (s : App) :
    (startup_register k s).cloud_client_running = s.cloud_client_running ∧
    (startup_register k s).halted = s.halted ∧
    (startup_register k s).error_count = s.error_count ∧
    (startup_register k s).value_increment_mutex = s.value_increment_mutex ∧
    (startup_register k s).m2m_get_res = s.m2m_get_res := by
  unfold startup_register
  dsimp only
  split_ifs <;> simp [App.log]

theorem startup_stages (k : SdkConsts) (e : Startup) (h : (startup k e).2 = none) :
    ∃ s s1, startup_platform k e = (s, none) ∧ startup_resources e s = (s1, none) ∧
      (startup k e).1 = startup_register k s1 := by
  unfold startup at h ⊢
  rcases hsp : startup_platform k e with ⟨s, c⟩
  rw [hsp] at h
  cases c with
  | some code => simp at h
  | none =>
    simp only at h ⊢
    rcases hsr : startup_resources e s with ⟨s1, c1⟩
    rw [hsr] at h
    cases c1 with
    | some code => simp at h
    | none => exact ⟨s, s1, rfl, hsr, rfl⟩

/-- After a successful start-up the loop is entered running, not reset, with
the mutex free, `error_count = 0` and the counter resource holding 0. -/
theorem startup_ok (k : SdkConsts) (e : Startup) (h : (startup k e).2 = none) :
    (startup k e).1.cloud_client_running = true ∧
    (startup k e).1.halted = false ∧
    (startup k e).1.error_count = 0 ∧
    (startup k e).1.value_increment_mutex = false ∧
    (startup k e).1.m2m_get_res = some (counter_resource 0) := by
  obtain ⟨s, s1, hsp, hsr, heq⟩ := startup_stages k e h
  have hp := startup_platform_frame k e
  rw [hsp] at hp
  have h1 : s.cloud_client_running = true := congrArg App.cloud_client_running hp
  have h2 : s.halted = false := congrArg App.halted hp
  have h3 : s.error_count = 0 := congrArg App.error_count hp
  have h4 : s.value_increment_mutex = false := congrArg App.value_increment_mutex hp
  have hr := startup_resources_frame e s
  rw [hsr] at hr
  have hg := startup_register_frame k s1
  rw [heq]
  refine ⟨?_, ?_, ?_, ?_, ?_⟩
  · rw [hg.1, hr.1, h1]
  · rw [hg.2.1, hr.2.1, h2]
  · rw [hg.2.2.1, hr.2.2.1, h3]
  · rw [hg.2.2.2.1, hr.2.2.2.1, h4]
  · rw [hg.2.2.2.2, hr.2.2.2.2 rfl]

theorem main_after_startup (k : SdkConsts) (e : Startup) (input : List ConsoleRead)
    (h : (startup k e).2 = none) :
    main k e input = console_loop k input (startup k e).1 := by
  unfold main
  rcases hs : startup k e with ⟨s, c⟩
  rw [hs] at h
  simp only at h
  subst h
  rfl

/-- An iteration during which the other tasks do nothing is the loop body. -/
theorem console_iteration_quiet (k : SdkConsts) (fsd c : Int) (s : App)
    (hh : s.halted = false) :
    console_iteration k { async := [], in_char := c, fcc_storage_delete := fsd } s =
      console_step fsd c s := by
  simp [console_iteration, Async.run_all, hh]

/-- C4: when `getchar()` returns a negative value (end of input), `0x03`,
or any other value that fails the three command tests (such as 0), the loop
body reads that one character, prints, closes the cloud client once and
breaks: the counter resource and the mutex are untouched, the rest of the
input is never read, and `main` returns 0. -/
theorem C4_fallthrough_deregisters_and_returns_zero (k : SdkConsts) (e : Startup)
    (fsd c : Int) (s : App) (rest : List ConsoleRead)
    (hc : c < 0 ∨ c = CTRL_C ∨ (c ≠ CHAR_i ∧ c ≠ CHAR_r ∧ ¬ (c > 0 ∧ c ≠ CTRL_C))) :
    console_step fsd c s = some (deregister_client (s.log [Effect.getchar]), Ctl.break_loop) ∧
    (deregister_client (s.log [Effect.getchar])).trace =
      s.trace ++ [Effect.getchar, Effect.printf Msg.unregistering, Effect.cloud_client_close] ∧
    (deregister_client (s.log [Effect.getchar])).closes = s.closes + 1 ∧
    { deregister_client (s.log [Effect.getchar]) with trace := s.trace } = s ∧
    (s.cloud_client_running = true → s.halted = false →
      console_loop k ({ async := [], in_char := c, fcc_storage_delete := fsd } :: rest) s =
        some (deregister_client (s.log [Effect.getchar]), Exit.returned 0)) ∧
    ((startup k e).2 = none →
      main k e ({ async := [], in_char := c, fcc_storage_delete := fsd } :: rest) =
        some (deregister_client ((startup k e).1.log [Effect.getchar]), Exit.returned 0)) := by
  have hstep : ∀ s : App, console_step fsd c s =
      some (deregister_client (s.log [Effect.getchar]), Ctl.break_loop) :=
    fun s => console_step_fallthrough fsd c s hc
  have hloop : ∀ s : App, s.cloud_client_running = true → s.halted = false →
      console_loop k ({ async := [], in_char := c, fcc_storage_delete := fsd } :: rest) s =
        some (deregister_client (s.log [Effect.getchar]), Exit.returned 0) := by
    intro s hr hh
    simp [console_loop, hr, console_iteration_quiet k fsd c s hh, hstep s]
  refine ⟨hstep s, ?_, ?_, ?_, hloop s, ?_⟩
  · simp [deregister_client, App.log]
  · simp [deregister_client, App.log, App.closes, List.count_append]
  · simp [deregister_client, App.log]
  · intro h
    have hok := startup_ok k e h
    rw [main_after_startup k e _ h]
    exact hloop _ hok.1 hok.2.1

/-- Witness for C4: end of input right after start-up. -/
theorem C4_fallthrough_deregisters_and_returns_zero_witness :
    (console_step 0 EOF App.boot).map Prod.snd = some Ctl.break_loop ∧
    (main SdkConsts.mbed Startup.all_ok
      [{ async := [], in_char := EOF, fcc_storage_delete := 0 }]).map Prod.snd =
        some (Exit.returned 0) := by
  have h := C4_fallthrough_deregisters_and_returns_zero SdkConsts.mbed Startup.all_ok 0 EOF
    App.boot [] (Or.inl (by decide))
  constructor
  · rw [h.1]
    rfl
  · rw [h.2.2.2.2.2 (by decide)]
    rfl

/-- C8: on `r` the loop body erases the persisted store, prints, sleeps for
the fixed delay and requests the device reset, in that order and whatever
status `fcc_storage_delete` reports; it does so in every state (also when no
resource exists), changes no global but the trace, closes nothing, and the
loop ends in the reset without deregistering. -/
theorem C8_r_erases_and_resets (k : SdkConsts) (fsd : Int) (s : App)
    (rest : List ConsoleRead) :
    ∃ s1, console_step fsd CHAR_r s = some (s1, Ctl.no_return) ∧
      s1.trace = s.trace ++ [Effect.getchar, Effect.fcc_storage_delete,
        Effect.printf Msg.storage_erased, Effect.sleep_for 1000, Effect.NVIC_SystemReset] ∧
      s1.halted = true ∧
      s1.resets = s.resets + 1 ∧
      s1.closes = s.closes ∧
      { s1 with trace := s.trace, halted := s.halted } = s ∧
      (∀ fsd2 : Int, console_step fsd2 CHAR_r s = console_step fsd CHAR_r s) ∧
      (s.cloud_client_running = true → s.halted = false →
        console_loop k ({ async := [], in_char := CHAR_r, fcc_storage_delete := fsd } :: rest) s =
          some (s1, Exit.device_reset)) := by
  have hstep : ∀ f : Int, console_step f CHAR_r s = some (NVIC_SystemReset
      (((((s.log [Effect.getchar]).log [Effect.fcc_storage_delete]).log
        [Effect.printf Msg.storage_erased]).log [Effect.sleep_for 1000])), Ctl.no_return) := by
    intro f
    simp [console_step, CHAR_r, CHAR_i]
  refine ⟨_, hstep fsd, ?_, ?_, ?_, ?_, ?_, ?_, ?_⟩
  · simp [NVIC_SystemReset, App.log]
  · simp [NVIC_SystemReset, App.log]
  · simp [NVIC_SystemReset, App.log, App.resets, List.count_append]
  · simp [NVIC_SystemReset, App.log, App.closes, List.count_append]
  · simp [NVIC_SystemReset, App.log]
  · intro f
    rw [hstep f, hstep fsd]
  · intro hr hh
    simp [console_loop, hr, console_iteration_quiet k fsd CHAR_r s hh, hstep fsd]

/-- Witness for C8: `r` at boot, before any resource exists. -/
theorem C8_r_erases_and_resets_witness :
    ∃ s1, console_loop SdkConsts.mbed
        [{ async := [], in_char := CHAR_r, fcc_storage_delete := -1 }] App.boot =
      some (s1, Exit.device_reset) ∧ s1.m2m_get_res = none ∧ s1.closes = 0 := by
  obtain ⟨s1, _, _, _, _, hcl, hfr, _, hloop⟩ :=
    C8_r_erases_and_resets SdkConsts.mbed (-1) App.boot []
  refine ⟨s1, hloop rfl rfl, ?_, ?_⟩
  · have := congrArg App.m2m_get_res hfr
    simpa [App.boot] using this
  · rw [hcl]
    rfl

/-- C5 as stated fails at the top of the `int64_t` range: with the counter at
`INT64_MAX`, the character `x` (120) makes the loop body store `INT64_MIN`,
which is not the counter plus one. -/
theorem C5_increment_wraps_at_int64_max :
    (console_step 0 120 (App.with_counter INT64_MAX)).bind (fun p => counter_read p.1) =
      some INT64_MIN ∧
    INT64_MIN ≠ INT64_MAX + 1 := by
  decide

/-- C5, amended: on `i` the loop body only prints the three identity lines,
changes no global and continues.  On any other character that is not `r`, is
greater than 0 and is not `0x03`, the loop body is one call of
`value_increment`, the routine the periodic callback runs: provided the
counter resource holds a value below `INT64_MAX`, it raises the counter by
exactly one, closes nothing and continues. -/
theorem C5_print_or_increment (k : SdkConsts) (fsd c : Int) (s : App)
    (rest : List ConsoleRead) :
    (console_step fsd CHAR_i s =
        some (print_client_ids (s.log [Effect.getchar]), Ctl.continue_loop) ∧
      (print_client_ids (s.log [Effect.getchar])).trace =
        s.trace ++ [Effect.getchar, Effect.printf Msg.account_id,
          Effect.printf Msg.endpoint_name, Effect.printf Msg.device_id] ∧
      { print_client_ids (s.log [Effect.getchar]) with trace := s.trace } = s ∧
      (s.cloud_client_running = true → s.halted = false →
        console_loop k ({ async := [], in_char := CHAR_i, fcc_storage_delete := fsd } :: rest) s =
          console_loop k rest (print_client_ids (s.log [Effect.getchar])))) ∧
    (c ≠ CHAR_i → c ≠ CHAR_r → 0 < c → c ≠ CTRL_C →
      console_step fsd c s =
          (Async.run k Async.periodic_value_increment (s.log [Effect.getchar])).map
            (fun s1 => (s1, Ctl.continue_loop)) ∧
        ∀ r : M2MResource, s.m2m_get_res = some r →
          r.operation = Operation.GET_PUT_ALLOWED → s.value_increment_mutex = false →
          INT64_MIN ≤ r.value → r.value < INT64_MAX →
          ∃ s1, console_step fsd c s = some (s1, Ctl.continue_loop) ∧
            s1.m2m_get_res = some { r with value := r.value + 1 } ∧
            s1.trace = s.trace ++ [Effect.getchar, Effect.mutex_lock,
              Effect.set_value r.object_id r.resource_id (r.value + 1), Effect.mutex_unlock] ∧
            s1.closes = s.closes ∧
            { s1 with trace := s.trace, m2m_get_res := s.m2m_get_res } = s ∧
            (s.cloud_client_running = true → s.halted = false →
              console_loop k ({ async := [], in_char := c, fcc_storage_delete := fsd } :: rest) s =
                console_loop k rest s1)) := by
  constructor
  · have hstep : console_step fsd CHAR_i s =
        some (print_client_ids (s.log [Effect.getchar]), Ctl.continue_loop) := by
      simp [console_step]
    refine ⟨hstep, ?_, ?_, ?_⟩
    · simp [print_client_ids, App.log]
    · simp [print_client_ids, App.log]
    · intro hr hh
      simp [console_loop, hr, console_iteration_quiet k fsd CHAR_i s hh, hstep]
  · intro h1 h2 h3 h4
    have hstep : console_step fsd c s =
        (value_increment (s.log [Effect.getchar])).map (fun s1 => (s1, Ctl.continue_loop)) := by
      have h5 : c > 0 ∧ c ≠ CTRL_C := ⟨h3, h4⟩
      unfold console_step
      simp only [h1, h2, if_false]
      rw [if_pos h5]
      cases value_increment (s.log [Effect.getchar]) <;> rfl
    refine ⟨hstep, ?_⟩
    intro r hr hop hm hlo hhi
    have hv := value_increment_succ (s.log [Effect.getchar]) r (by simpa [App.log] using hr) hop
      (by simpa [App.log] using hm) hlo hhi
    rw [hv] at hstep
    refine ⟨_, hstep, ?_, ?_, ?_, ?_, ?_⟩
    · simp
    · simp [App.log]
    · simp [App.log, App.closes, List.count_append]
    · cases s
      simp [App.log] at hm ⊢
      exact hm
    · intro hrun hh
      simp [console_loop, hrun, console_iteration_quiet k fsd c s hh, hstep]

/-- Witness for C5: `x` right after start-up takes the counter from 0 to 1. -/
theorem C5_print_or_increment_witness :
    ∃ s1, console_step 0 120 (App.with_counter 0) = some (s1, Ctl.continue_loop) ∧
      counter_read s1 = some 1 := by
  obtain ⟨s1, h1, h2, _⟩ :=
    (C5_print_or_increment SdkConsts.mbed 0 120 (App.with_counter 0) []).2
      (by decide) (by decide) (by decide) (by decide) |>.2 (counter_resource 0) rfl rfl rfl
      (by decide) (by decide)
  refine ⟨s1, h1, ?_⟩
  simp [counter_read, h2, M2MResource.get_value_int, counter_resource]

/-! ## Periodic firings (C3) -/

theorem periodic_firings_from (n : Nat) :
    ∀ (s : App) (r : M2MResource), s.m2m_get_res = some r →
      r.operation = Operation.GET_PUT_ALLOWED → s.value_increment_mutex = false →
      INT64_MIN ≤ r.value → r.value + n ≤ INT64_MAX →
      ∃ s1, periodic_firings n s = some s1 ∧
        s1.m2m_get_res = some { r with value := r.value + n } ∧
        s1.value_increment_mutex = false := by
  induction n with
  | zero =>
    intro s r hr _ hm _ _
    exact ⟨s, rfl, by simpa using hr, hm⟩
  | succ n ih =>
    intro s r hr hop hm hlo hhi
    obtain ⟨s1, h1, h2, h3⟩ := ih s r hr hop hm hlo (by push_cast at hhi; omega)
    have hv := value_increment_succ s1 { r with value := r.value + n } h2 hop h3
      (by simp only; omega) (by simp only; push_cast at hhi; omega)
    have hpf : periodic_firings (n + 1) s = value_increment s1 := by
      simp only [periodic_firings, h1]
    rw [hpf, hv]
    refine ⟨_, rfl, ?_, rfl⟩
    simp only [Option.some.injEq, M2MResource.mk.injEq, true_and, and_true]
    push_cast
    ring

/-- C3: start-up leaves the counter resource at 0 with the mutex free; from
there, as long as the count stays within `int64_t`, `n` firings of the
periodic `value_increment` callback all return and leave the counter at `n`
with the mutex released, and each single firing takes the counter from `m`
to `m + 1`. -/
theorem C3_counter_after_n_firings (k : SdkConsts) (e : Startup) (n : Nat)
    (hstart : (startup k e).2 = none) (hn : (n : Int) ≤ INT64_MAX) :
    counter_read (startup k e).1 = some 0 ∧
    (startup k e).1.value_increment_mutex = false ∧
    (∃ s, periodic_firings n (startup k e).1 = some s ∧
      counter_read s = some (n : Int) ∧ s.value_increment_mutex = false) ∧
    (∀ m : Nat, m < n →
      ∃ a b, periodic_firings m (startup k e).1 = some a ∧ value_increment a = some b ∧
        periodic_firings (m + 1) (startup k e).1 = some b ∧
        counter_read a = some (m : Int) ∧ counter_read b = some ((m : Int) + 1) ∧
        a.value_increment_mutex = false ∧ b.value_increment_mutex = false) := by
  have hok := startup_ok k e hstart
  have hr := hok.2.2.2.2
  have hm := hok.2.2.2.1
  have hmin : INT64_MIN ≤ (counter_resource 0).value := by decide
  have key : ∀ j : Nat, (j : Int) ≤ INT64_MAX →
      ∃ s, periodic_firings j (startup k e).1 = some s ∧
        counter_read s = some (j : Int) ∧ s.value_increment_mutex = false := by
    intro j hj
    obtain ⟨s1, h1, h2, h3⟩ := periodic_firings_from j (startup k e).1 (counter_resource 0) hr rfl
      hm hmin (by simpa [counter_resource] using hj)
    exact ⟨s1, h1, by simp [counter_read, h2, M2MResource.get_value_int, counter_resource], h3⟩
  refine ⟨?_, hm, key n hn, ?_⟩
  · simp [counter_read, hr, M2MResource.get_value_int, counter_resource]
  · intro m hlt
    obtain ⟨a, ha1, ha2, ha3⟩ := key m (by omega)
    obtain ⟨b, hb1, hb2, hb3⟩ := key (m + 1) (by push_cast; omega)
    refine ⟨a, b, ha1, ?_, hb1, ha2, by simpa using hb2, ha3, hb3⟩
    simpa [periodic_firings, ha1] using hb1

/-- Witness for C3: three intervals after start-up, the counter is 3. -/
theorem C3_counter_after_n_firings_witness :
    ∃ s, periodic_firings 3 (startup SdkConsts.mbed Startup.all_ok).1 = some s ∧
      counter_read s = some 3 ∧ s.value_increment_mutex = false := by
  simpa using (C3_counter_after_n_firings SdkConsts.mbed Startup.all_ok 3 (by decide)
    (by decide)).2.2.1

/-! ## Deregistration (C6) -/

/-- C6: the remote deregister action (`deregister`, run on the existing
deregister resource) and a console character that falls through both end
with `deregister_client`, whose last act is `cloud_client->close()`; when the
client then reports `client_unregistered`, both traces finish with the same
tail, whose actions are those of the specification: close, then network
disconnect, then `cloud_client_running = false`.  The two final states
differ in nothing but the trace. -/
theorem C6_remote_and_console_deregistration_agree (fsd c : Int) (s : App) (r : M2MResource)
    (hc : c < 0 ∨ c = CTRL_C ∨ (c ≠ CHAR_i ∧ c ≠ CHAR_r ∧ ¬ (c > 0 ∧ c ≠ CTRL_C)))
    (hr : s.m2m_deregister_res = some r) :
    ∃ a b tail, deregister s = some a ∧ console_step fsd c s = some (b, Ctl.break_loop) ∧
      a.trace.getLast? = some Effect.cloud_client_close ∧
      b.trace.getLast? = some Effect.cloud_client_close ∧
      (client_unregistered a).trace =
        s.trace ++ [Effect.printf Msg.post_deregister_executed,
          Effect.send_delayed_post_response r.object_id r.resource_id] ++ tail ∧
      (client_unregistered b).trace = s.trace ++ [Effect.getchar] ++ tail ∧
      actions tail = spec_terminal_sequence ∧
      (client_unregistered a).cloud_client_running = false ∧
      (client_unregistered b).cloud_client_running = false ∧
      { client_unregistered a with trace := [] } = { client_unregistered b with trace := [] } := by
  refine ⟨deregister_client ((s.log [Effect.printf Msg.post_deregister_executed]).log
      [Effect.send_delayed_post_response r.object_id r.resource_id]),
    deregister_client (s.log [Effect.getchar]),
    [Effect.printf Msg.unregistering, Effect.cloud_client_close,
      Effect.printf Msg.client_unregistered, Effect.network_disconnect,
      Effect.store_cloud_client_running false], ?_, console_step_fallthrough fsd c s hc,
    ?_, ?_, ?_, ?_, ?_, ?_, ?_, ?_⟩
  · simp only [deregister, hr]
  · simp [deregister_client, App.log]
  · simp [deregister_client, App.log]
  · simp [client_unregistered, deregister_client, App.log]
  · simp [client_unregistered, deregister_client, App.log]
  · decide
  · rfl
  · rfl
  · simp [client_unregistered, deregister_client, App.log]

/-- Witness for C6: after start-up, the remote action and Ctrl+C. -/
theorem C6_remote_and_console_deregistration_agree_witness :
    ∃ a b, deregister (startup SdkConsts.mbed Startup.all_ok).1 = some a ∧
      console_step 0 CTRL_C (startup SdkConsts.mbed Startup.all_ok).1 = some (b, Ctl.break_loop) ∧
      { client_unregistered a with trace := [] } = { client_unregistered b with trace := [] } := by
  obtain ⟨a, b, _, h1, h2, _, _, _, _, _, _, _, h3⟩ :=
    C6_remote_and_console_deregistration_agree 0 CTRL_C
      (startup SdkConsts.mbed Startup.all_ok).1
      { create_resource 5000 0 1 Operation.POST_ALLOWED with delayed_response := true }
      (Or.inr (Or.inl rfl)) (by decide)
  exact ⟨a, b, h1, h2, h3⟩

/-! ## Exit codes (C9) -/

/-- C9 as stated fails: a trace-initialisation failure, a storage
configuration failure, a network connect failure and a provisioning
initialisation failure all make `main` return the same code, -1. -/
theorem C9_failure_classes_share_exit_code :
    (main SdkConsts.mbed { Startup.all_ok with mbed_trace_init := 1 } []).map Prod.snd =
      some (Exit.returned (-1)) ∧
    (main SdkConsts.mbed { Startup.all_ok with kv_init_storage_config := 1 } []).map Prod.snd =
      some (Exit.returned (-1)) ∧
    (main SdkConsts.mbed { Startup.all_ok with network_connect := 1 } []).map Prod.snd =
      some (Exit.returned (-1)) ∧
    (main SdkConsts.mbed { Startup.all_ok with fcc_init := 1 } []).map Prod.snd =
      some (Exit.returned (-1)) := by
  decide

theorem console_loop_returns_zero (k : SdkConsts) (input : List ConsoleRead) :
    ∀ (s s1 : App) (code : Int),
      console_loop k input s = some (s1, Exit.returned code) → code = 0 := by
  induction input with
  | nil =>
    intro s s1 code h
    unfold console_loop at h
    split_ifs at h
    · split at h <;> simp at h
      exact h.2.symm
    · simp at h
      exact h.2.symm
  | cons rd rest ih =>
    intro s s1 code h
    unfold console_loop at h
    split_ifs at h
    · split at h
      · simp at h
      · exact ih _ _ _ h
      · simp at h
        exact h.2.symm
      · simp at h
    · simp at h
      exact h.2.symm

/-- C9, amended: the first start-up call that fails makes `main` return at
once, with nothing attempted twice and nothing attempted after the failure
(the trace is exactly the calls up to the failing one and its message).
The code is negative: -2 when the address retrieval fails and -1 for every
other failure (trace initialisation, storage configuration, no default
network, network connect, provisioning initialisation, developer flow), so
only the address retrieval has a code of its own.  Whenever `main` returns
after a successful start-up the code is 0, and end of input after a
successful start-up deregisters and returns 0. -/
theorem C9_startup_failure_exit_codes (k : SdkConsts) (e : Startup) (input : List ConsoleRead) :
    (e.mbed_trace_init ≠ 0 →
      main k e input = some ({ App.boot with trace :=
        [Effect.mbed_trace_init, Effect.printf (Msg.mbed_trace_init_failed e.mbed_trace_init)] },
        Exit.returned (-1))) ∧
    (e.mbed_trace_init = 0 → e.kv_init_storage_config ≠ k.MBED_SUCCESS →
      main k e input = some ({ App.boot with trace :=
        [Effect.mbed_trace_init, Effect.printf Msg.application_ready,
          Effect.kv_init_storage_config,
          Effect.printf (Msg.kv_init_storage_config_failed e.kv_init_storage_config)] },
        Exit.returned (-1))) ∧
    (e.mbed_trace_init = 0 → e.kv_init_storage_config = k.MBED_SUCCESS →
      e.default_network = false →
      main k e input = some ({ App.boot with trace :=
        [Effect.mbed_trace_init, Effect.printf Msg.application_ready,
          Effect.kv_init_storage_config, Effect.printf Msg.connect_to_network,
          Effect.get_default_instance, Effect.printf Msg.no_default_network] },
        Exit.returned (-1))) ∧
    (e.mbed_trace_init = 0 → e.kv_init_storage_config = k.MBED_SUCCESS →
      e.default_network = true → e.network_connect ≠ k.NSAPI_ERROR_OK →
      main k e input = some ({ App.boot with trace :=
        [Effect.mbed_trace_init, Effect.printf Msg.application_ready,
          Effect.kv_init_storage_config, Effect.printf Msg.connect_to_network,
          Effect.get_default_instance, Effect.network_connect,
          Effect.printf (Msg.network_connect_failed e.network_connect)] },
        Exit.returned (-1))) ∧
    (e.mbed_trace_init = 0 → e.kv_init_storage_config = k.MBED_SUCCESS →
      e.default_network = true → e.network_connect = k.NSAPI_ERROR_OK →
      e.get_ip_address ≠ 0 →
      main k e input = some ({ App.boot with trace :=
        [Effect.mbed_trace_init, Effect.printf Msg.application_ready,
          Effect.kv_init_storage_config, Effect.printf Msg.connect_to_network,
          Effect.get_default_instance, Effect.network_connect, Effect.get_ip_address,
          Effect.printf (Msg.get_ip_address_failed e.get_ip_address)] },
        Exit.returned (-2))) ∧
    (e.mbed_trace_init = 0 → e.kv_init_storage_config = k.MBED_SUCCESS →
      e.default_network = true → e.network_connect = k.NSAPI_ERROR_OK →
      e.get_ip_address = 0 → e.fcc_init ≠ k.FCC_STATUS_SUCCESS →
      main k e input = some ({ App.boot with trace :=
        [Effect.mbed_trace_init, Effect.printf Msg.application_ready,
          Effect.kv_init_storage_config, Effect.printf Msg.connect_to_network,
          Effect.get_default_instance, Effect.network_connect, Effect.get_ip_address,
          Effect.printf Msg.network_initialized, Effect.printf Msg.start_developer_flow,
          Effect.fcc_init, Effect.printf (Msg.fcc_init_failed e.fcc_init)] },
        Exit.returned (-1))) ∧
    (e.mbed_trace_init = 0 → e.kv_init_storage_config = k.MBED_SUCCESS →
      e.default_network = true → e.network_connect = k.NSAPI_ERROR_OK →
      e.get_ip_address = 0 → e.fcc_init = k.FCC_STATUS_SUCCESS →
      e.fcc_developer_flow ≠ k.FCC_STATUS_SUCCESS →
      e.fcc_developer_flow ≠ k.FCC_STATUS_KCM_FILE_EXIST_ERROR →
      e.fcc_developer_flow ≠ k.FCC_STATUS_CA_ERROR →
      main k e input = some ({ App.boot with trace :=
        [Effect.mbed_trace_init, Effect.printf Msg.application_ready,
          Effect.kv_init_storage_config, Effect.printf Msg.connect_to_network,
          Effect.get_default_instance, Effect.network_connect, Effect.get_ip_address,
          Effect.printf Msg.network_initialized, Effect.printf Msg.start_developer_flow,
          Effect.fcc_init, Effect.fcc_entropy_set, Effect.fcc_developer_flow,
          Effect.printf (Msg.fcc_developer_flow_failed e.fcc_developer_flow)] },
        Exit.returned (-1))) ∧
    ((startup k e).2 = none → ∀ (s : App) (code : Int),
      main k e input = some (s, Exit.returned code) → code = 0) ∧
    ((startup k e).2 = none →
      main k e [] =
        some (deregister_client ((startup k e).1.log [Effect.getchar]), Exit.returned 0)) := by
  refine ⟨?_, ?_, ?_, ?_, ?_, ?_, ?_, ?_, ?_⟩
  · intro h1
    simp [main, startup, startup_platform, h1, App.log, App.boot]
  · intro h1 h2
    simp [main, startup, startup_platform, h1, h2, App.log, App.boot]
  · intro h1 h2 h3
    simp [main, startup, startup_platform, h1, h2, h3, App.log, App.boot]
  · intro h1 h2 h3 h4
    simp [main, startup, startup_platform, h1, h2, h3, h4, App.log, App.boot]
  · intro h1 h2 h3 h4 h5
    simp [main, startup, startup_platform, h1, h2, h3, h4, h5, App.log, App.boot]
  · intro h1 h2 h3 h4 h5 h6
    simp [main, startup, startup_platform, h1, h2, h3, h4, h5, h6, App.log, App.boot]
  · intro h1 h2 h3 h4 h5 h6 h7 h8 h9
    simp [main, startup, startup_platform, h1, h2, h3, h4, h5, h6, h7, h8, h9, App.log,
      App.boot]
  · intro h s code hm
    rw [main_after_startup k e input h] at hm
    exact console_loop_returns_zero k input _ _ _ hm
  · intro h
    have hok := startup_ok k e h
    rw [main_after_startup k e [] h]
    simp [console_loop, hok.1, console_step_fallthrough 0 EOF _ (Or.inl (by decide))]

/-- Witness for C9: a failing address retrieval returns -2, a failing
network connect returns -1. -/
theorem C9_startup_failure_exit_codes_witness :
    (main SdkConsts.mbed { Startup.all_ok with get_ip_address := -3004 } []).map Prod.snd =
      some (Exit.returned (-2)) ∧
    (main SdkConsts.mbed { Startup.all_ok with network_connect := -3004 } []).map Prod.snd =
      some (Exit.returned (-1)) := by
  have h := C9_startup_failure_exit_codes SdkConsts.mbed
    { Startup.all_ok with get_ip_address := -3004 } []
  have h2 := C9_startup_failure_exit_codes SdkConsts.mbed
    { Startup.all_ok with network_connect := -3004 } []
  constructor
  · rw [h.2.2.2.2.1 rfl rfl rfl rfl (by decide)]
    rfl
  · rw [h2.2.2.2.1 rfl rfl rfl (by decide)]
    rfl

/-! ## Mutual exclusion (C2) -/

theorem Inv.symm {target : Int} {s : App} {th ot : Thread} {r : M2MResource}
    (h : Inv target s th ot r) : Inv target s ot th r where
  res := h.res
  op := h.op
  lo := h.lo
  hi := h.hi
  th_calls := h.ot_calls
  ot_calls := h.th_calls
  th_read := h.ot_read
  ot_read := h.th_read
  mutex := by rw [h.mutex, Bool.or_comm]
  excl := fun hx => h.excl ⟨hx.2, hx.1⟩
  sum := by
    have := h.sum
    omega

@[simp]
theorem Thread.inside_at_lock (n : Nat) : (Thread.mk n Pc.at_lock).inside = false := rfl

@[simp]
theorem Thread.inside_at_read (n : Nat) : (Thread.mk n Pc.at_read).inside = true := rfl

@[simp]
theorem Thread.inside_at_write (n : Nat) (v : Int) :
    (Thread.mk n (Pc.at_write v)).inside = true := rfl

@[simp]
theorem Thread.inside_at_unlock (n : Nat) : (Thread.mk n Pc.at_unlock).inside = true := rfl

@[simp]
theorem Thread.remaining_at_lock (n : Nat) :
    (Thread.mk n Pc.at_lock).remaining = (n : Int) := rfl

@[simp]
theorem Thread.remaining_at_read (n : Nat) :
    (Thread.mk n Pc.at_read).remaining = (n : Int) := rfl

@[simp]
theorem Thread.remaining_at_write (n : Nat) (v : Int) :
    (Thread.mk n (Pc.at_write v)).remaining = (n : Int) := rfl

@[simp]
theorem Thread.remaining_at_unlock (n : Nat) :
    (Thread.mk n Pc.at_unlock).remaining = (n : Int) - 1 := rfl

@[simp]
theorem Thread.steps_left_at_lock (n : Nat) :
    (Thread.mk n Pc.at_lock).steps_left = 4 * n := rfl

@[simp]
theorem Thread.steps_left_at_read (n : Nat) :
    (Thread.mk n Pc.at_read).steps_left = 4 * n - 1 := rfl

@[simp]
theorem Thread.steps_left_at_write (n : Nat) (v : Int) :
    (Thread.mk n (Pc.at_write v)).steps_left = 4 * n - 2 := rfl

@[simp]
theorem Thread.steps_left_at_unlock (n : Nat) :
    (Thread.mk n Pc.at_unlock).steps_left = 4 * n - 3 := rfl

/-- Outside the critical section the writes to come are the calls to come. -/
theorem Thread.remaining_outside (th : Thread) (h : th.inside = false) :
    th.remaining = (th.calls : Int) := by
  obtain ⟨n, pc⟩ := th
  cases pc <;> simp at h ⊢

/-- Outside the critical section a task is at `lock()`. -/
theorem Thread.pc_outside (th : Thread) (h : th.inside = false) : th.pc = Pc.at_lock := by
  obtain ⟨n, pc⟩ := th
  cases pc <;> simp at h ⊢

/-- One statement of a task preserves the invariant; when the other task is
outside the critical section the statement is not a blocked `lock()` and the
task gets one statement closer to the end of its calls. -/
theorem Thread.step_preserves_inv (target : Int) (s : App) (th ot : Thread) (r : M2MResource)
    (h : Inv target s th ot r) :
    ∃ th1 s1 r1, th.step s = some (th1, s1) ∧ Inv target s1 th1 ot r1 ∧
      (ot.inside = false → th1.steps_left = th.steps_left - 1) := by
  obtain ⟨calls, pc⟩ := th
  by_cases hc : calls = 0
  · subst hc
    refine ⟨_, s, r, by simp [Thread.step], h, ?_⟩
    intro _
    have hin : (Thread.mk 0 pc).inside = false := by
      by_contra hx
      exact h.th_calls (by simpa using hx) rfl
    have hpc := Thread.pc_outside _ hin
    simp only at hpc
    subst hpc
    simp
  · cases pc with
    | at_lock =>
      by_cases hm : s.value_increment_mutex = true
      · refine ⟨_, s, r, by simp [Thread.step, hc, mutex_lock, hm], h, ?_⟩
        intro ho
        have hmx := h.mutex
        rw [hm, ho] at hmx
        simp at hmx
      · have hm2 : s.value_increment_mutex = false := by simpa using hm
        have hoi : ot.inside = false := by
          have hmx := h.mutex
          rw [hm2] at hmx
          simpa using hmx.symm
        refine ⟨⟨calls, Pc.at_read⟩,
          { s with value_increment_mutex := true }.log [Effect.mutex_lock], r,
          by simp [Thread.step, hc, mutex_lock, hm2], ?_, ?_⟩
        · exact {
            res := by simpa [App.log] using h.res
            op := h.op
            lo := h.lo
            hi := h.hi
            th_calls := fun _ => hc
            ot_calls := h.ot_calls
            th_read := by intro v hv; simp at hv
            ot_read := h.ot_read
            mutex := by simp [App.log]
            excl := by simp [hoi]
            sum := by
              have := h.sum
              simpa using this }
        · intro _
          simp
    | at_read =>
      refine ⟨⟨calls, Pc.at_write r.value⟩, s, r,
        by simp [Thread.step, hc, counter_read, h.res, M2MResource.get_value_int], ?_, ?_⟩
      · exact {
          res := h.res
          op := h.op
          lo := h.lo
          hi := h.hi
          th_calls := fun _ => hc
          ot_calls := h.ot_calls
          th_read := by
            intro v hv
            simp at hv
            exact hv.symm
          ot_read := h.ot_read
          mutex := by
            have := h.mutex
            simpa using this
          excl := by
            have := h.excl
            simpa using this
          sum := by
            have := h.sum
            simpa using this }
      · intro _
        simp
        omega
    | at_write v =>
      have hv : v = r.value := h.th_read v rfl
      subst hv
      have hoi : ot.inside = false := by
        have := h.excl
        simpa using this
      have hor : ot.remaining = (ot.calls : Int) := Thread.remaining_outside ot hoi
      have hsum := h.sum
      rw [hor] at hsum
      simp only [Thread.remaining_at_write] at hsum
      have hcpos : (1 : Int) ≤ (calls : Int) := by omega
      have hlo := h.lo
      have hhi := h.hi
      have h1 : INT64_MIN ≤ r.value + 1 := by omega
      have h2 : r.value + 1 ≤ INT64_MAX := by omega
      have hw : wrap_int64 (r.value + 1) = r.value + 1 := wrap_int64_of_range _ h1 h2
      have hset : (r.set_value (r.value + 1)).2 = { r with value := r.value + 1 } := by
        simp [M2MResource.set_value, h.op, h1, h2]
      refine ⟨⟨calls, Pc.at_unlock⟩,
        { s with m2m_get_res := some { r with value := r.value + 1 } }.log
          [Effect.set_value r.object_id r.resource_id (r.value + 1)],
        { r with value := r.value + 1 },
        by simp [Thread.step, hc, counter_write, h.res, hw, hset], ?_, ?_⟩
      · exact {
          res := by simp [App.log]
          op := h.op
          lo := by simp only; omega
          hi := h.hi
          th_calls := fun _ => hc
          ot_calls := h.ot_calls
          th_read := by intro w hw2; simp at hw2
          ot_read := by
            intro w hw2
            have := Thread.pc_outside ot hoi
            rw [this] at hw2
            simp at hw2
          mutex := by
            have := h.mutex
            simpa [App.log] using this
          excl := by simp [hoi]
          sum := by
            rw [hor]
            simp only [Thread.remaining_at_unlock]
            omega }
      · intro _
        simp
        omega
    | at_unlock =>
      have hoi : ot.inside = false := by
        have := h.excl
        simpa using this
      refine ⟨⟨calls - 1, Pc.at_lock⟩, mutex_unlock s, r, by simp [Thread.step, hc], ?_, ?_⟩
      · exact {
          res := by simpa [mutex_unlock, App.log] using h.res
          op := h.op
          lo := h.lo
          hi := h.hi
          th_calls := by simp
          ot_calls := h.ot_calls
          th_read := by intro w hw2; simp at hw2
          ot_read := h.ot_read
          mutex := by simp [mutex_unlock, App.log, hoi]
          excl := by simp
          sum := by
            have := h.sum
            simp only [Thread.remaining_at_unlock, Thread.remaining_at_lock] at this ⊢
            have hcast : ((calls - 1 : Nat) : Int) = (calls : Int) - 1 := by omega
            rw [hcast]
            exact this }
      · intro _
        simp
        omega

theorem Caller.other_other (t : Caller) : t.other.other = t := by
  cases t <;> rfl

theorem Conc.set_app (c : Conc) (t : Caller) (th : Thread) (s : App) :
    (c.set t th s).app = s := by
  cases t <;> rfl

theorem Conc.set_get (c : Conc) (t : Caller) (th : Thread) (s : App) :
    (c.set t th s).get t = th := by
  cases t <;> rfl

theorem Conc.set_get_other (c : Conc) (t : Caller) (th : Thread) (s : App) :
    (c.set t th s).get t.other = c.get t.other := by
  cases t <;> rfl

/-- The invariant read from the side of task `t`. -/
theorem Conc.scheduled_step_inv (target : Int) (c : Conc) (t : Caller)
    (h : ∃ r, Inv target c.app (c.get t) (c.get t.other) r) :
    ∃ c1, c.step t = some c1 ∧ (∃ r1, Inv target c1.app (c1.get t) (c1.get t.other) r1) ∧
      c1.get t.other = c.get t.other ∧
      ((c.get t.other).inside = false →
        (c1.get t).steps_left = (c.get t).steps_left - 1) := by
  obtain ⟨r, hinv⟩ := h
  obtain ⟨th1, s1, r1, hstep, hinv1, hprog⟩ := Thread.step_preserves_inv target c.app _ _ r hinv
  refine ⟨c.set t th1 s1, by simp [Conc.step, hstep], ⟨r1, ?_⟩, Conc.set_get_other c t th1 s1, ?_⟩
  · rw [Conc.set_app, Conc.set_get, Conc.set_get_other]
    exact hinv1
  · intro ho
    rw [Conc.set_get]
    exact hprog ho

theorem Conc.inv_other (target : Int) (c : Conc) (t : Caller)
    (h : ∃ r, Inv target c.app (c.get t) (c.get t.other) r) :
    ∃ r, Inv target c.app (c.get t.other) (c.get t.other.other) r := by
  obtain ⟨r, hinv⟩ := h
  rw [Caller.other_other]
  exact ⟨r, hinv.symm⟩

/-- Every schedule runs (no null dereference) and preserves the invariant. -/
theorem Conc.run_inv (target : Int) (sched : List Caller) :
    ∀ c : Conc, (∃ r, Inv target c.app c.main_task c.worker_task r) →
      ∃ c1, Conc.run sched c = some c1 ∧
        ∃ r1, Inv target c1.app c1.main_task c1.worker_task r1 := by
  induction sched with
  | nil =>
    intro c h
    exact ⟨c, rfl, h⟩
  | cons t rest ih =>
    intro c h
    have hstep : ∃ c1, c.step t = some c1 ∧
        ∃ r1, Inv target c1.app c1.main_task c1.worker_task r1 := by
      cases t with
      | main_task =>
        obtain ⟨c1, h1, h2, _⟩ := Conc.scheduled_step_inv target c Caller.main_task h
        exact ⟨c1, h1, h2⟩
      | worker_task =>
        obtain ⟨r, hinv⟩ := h
        obtain ⟨c1, h1, ⟨r1, h2⟩, _⟩ := Conc.scheduled_step_inv target c Caller.worker_task ⟨r, hinv.symm⟩
        exact ⟨c1, h1, r1, h2.symm⟩
    obtain ⟨c1, h1, h2⟩ := hstep
    obtain ⟨c2, h3, h4⟩ := ih c1 h2
    exact ⟨c2, by simp [Conc.run, h1, h3], h4⟩

theorem Conc.run_append (a b : List Caller) :
    ∀ c : Conc, Conc.run (a ++ b) c = (Conc.run a c).bind (Conc.run b) := by
  induction a with
  | nil => intro c; rfl
  | cons t rest ih =>
    intro c
    simp only [List.cons_append, Conc.run]
    cases c.step t with
    | none => rfl
    | some c1 => exact ih c1

/-- A task whose statements are all executed has no call left. -/
theorem Inv.calls_of_steps_left {target : Int} {s : App} {th ot : Thread} {r : M2MResource}
    (h : Inv target s th ot r) (h0 : th.steps_left = 0) : th.calls = 0 ∧ th.inside = false := by
  obtain ⟨n, pc⟩ := th
  have hc := h.th_calls
  cases pc <;> simp at h0 hc ⊢ <;> omega

/-- While the other task stays outside the critical section, a task alone
runs all its calls to the end. -/
theorem Conc.run_alone (target : Int) (t : Caller) (n : Nat) :
    ∀ c : Conc, (∃ r, Inv target c.app (c.get t) (c.get t.other) r) →
      (c.get t.other).inside = false → (c.get t).steps_left = n →
      ∃ c1, Conc.run (List.replicate n t) c = some c1 ∧
        (c1.get t).calls = 0 ∧ (c1.get t).inside = false ∧
        c1.get t.other = c.get t.other ∧
        ∃ r1, Inv target c1.app (c1.get t) (c1.get t.other) r1 := by
  induction n with
  | zero =>
    intro c h _ h0
    obtain ⟨r, hinv⟩ := h
    have := hinv.calls_of_steps_left h0
    exact ⟨c, rfl, this.1, this.2, rfl, r, hinv⟩
  | succ n ih =>
    intro c h ho hn
    obtain ⟨c1, h1, h2, h3, h4⟩ := Conc.scheduled_step_inv target c t h
    have h5 : (c1.get t).steps_left = n := by
      rw [h4 ho, hn]
      rfl
    obtain ⟨c2, k1, k2, k3, k4, k5⟩ := ih c1 h2 (by rw [h3]; exact ho) h5
    refine ⟨c2, ?_, k2, k3, by rw [k4, h3], k5⟩
    simp [List.replicate, Conc.run, h1, k1]

/-- From a state where the other task is outside the critical section, the
schedule "all of `t`, then all of the other" lets every call return. -/
theorem Conc.finish_from (target : Int) (t : Caller) (c : Conc)
    (h : ∃ r, Inv target c.app (c.get t) (c.get t.other) r)
    (ho : (c.get t.other).inside = false) :
    ∃ more c2, Conc.run more c = some c2 ∧ (c2.get t).calls = 0 ∧
      (c2.get t.other).calls = 0 ∧
      ∃ r2, Inv target c2.app (c2.get t) (c2.get t.other) r2 := by
  obtain ⟨c1, h1, h2, h3, h4, h5⟩ := Conc.run_alone target t _ c h ho rfl
  have h6 := Conc.inv_other target c1 t h5
  obtain ⟨c2, k1, k2, _, k4, k5⟩ := Conc.run_alone target t.other _ c1 h6
    (by rw [Caller.other_other]; exact h3) rfl
  rw [Caller.other_other] at k4 k5
  refine ⟨List.replicate (c.get t).steps_left t ++
    List.replicate (c1.get t.other).steps_left t.other, c2, ?_, by rw [k4]; exact h2, k2, ?_⟩
  · rw [Conc.run_append, h1]
    exact k1
  · obtain ⟨r2, hinv⟩ := k5
    exact ⟨r2, hinv.symm⟩

/-- The four statements of a task, run without interruption from a free
mutex, are one call of `value_increment`. -/
theorem Thread.four_steps_eq_value_increment (n : Nat) (s : App)
    (hm : s.value_increment_mutex = false) :
    ((((Thread.mk (n + 1) Pc.at_lock).step s).bind (fun p => p.1.step p.2)).bind
        (fun p => p.1.step p.2)).bind (fun p => p.1.step p.2) =
      (value_increment s).map (fun s1 => (Thread.mk n Pc.at_lock, s1)) := by
  cases hr : s.m2m_get_res with
  | none =>
    simp [Thread.step, value_increment, mutex_lock, hm, counter_read, App.log, hr]
  | some r =>
    simp [Thread.step, value_increment, mutex_lock, hm, counter_read, counter_write, App.log, hr]

/-- When every call has returned the counter holds the target. -/
theorem Inv.finished {target : Int} {s : App} {th ot : Thread} {r : M2MResource}
    (h : Inv target s th ot r) (h1 : th.calls = 0) (h2 : ot.calls = 0) :
    counter_read s = some target := by
  have hti : th.inside = false := by
    by_contra hx
    exact h.th_calls (by simpa using hx) h1
  have hoi : ot.inside = false := by
    by_contra hx
    exact h.ot_calls (by simpa using hx) h2
  have hsum := h.sum
  rw [Thread.remaining_outside th hti, Thread.remaining_outside ot hoi, h1, h2] at hsum
  simp only [counter_read, h.res, M2MResource.get_value_int]
  congr 1
  simpa using hsum

/-- C2 as stated fails at the top of the `int64_t` range: one call by the
main task, run to its end with the counter at `INT64_MAX`, leaves
`INT64_MIN`, not the initial value plus one. -/
theorem C2_final_value_wraps_at_int64_max :
    (Conc.run [Caller.main_task, Caller.main_task, Caller.main_task, Caller.main_task]
        (Conc.start (App.with_counter INT64_MAX) 1 0)).map
      (fun c => (c.main_task.calls, c.worker_task.calls, counter_read c.app)) =
      some (0, 0, some INT64_MIN) ∧
    INT64_MIN ≠ INT64_MAX + 1 := by
  decide

/-- C2, amended: let the main task issue `m` calls of `value_increment` and
the worker task `w` calls, from a state with the mutex free and the counter
resource holding a value with `value + m + w ≤ INT64_MAX`.  Then every
schedule runs; at every point at most one task is between `lock()` and
`unlock()` and the mutex is held exactly then; whenever all calls have
returned the counter is the initial value plus `m + w`; and from every point
some continuation lets all calls return (nothing is lost and nothing
deadlocks). -/
theorem C2_no_lost_updates (s : App) (r : M2MResource) (m w : Nat) (sched : List Caller)
    (hr : s.m2m_get_res = some r) (hop : r.operation = Operation.GET_PUT_ALLOWED)
    (hm : s.value_increment_mutex = false) (hlo : INT64_MIN ≤ r.value)
    (hhi : r.value + m + w ≤ INT64_MAX) :
    ∃ c, Conc.run sched (Conc.start s m w) = some c ∧
      ¬ (c.main_task.inside = true ∧ c.worker_task.inside = true) ∧
      c.app.value_increment_mutex = (c.main_task.inside || c.worker_task.inside) ∧
      (c.finished → counter_read c.app = some (r.value + m + w)) ∧
      ∃ more c1, Conc.run more c = some c1 ∧ c1.finished ∧
        counter_read c1.app = some (r.value + m + w) := by
  have hstart : Inv (r.value + m + w) (Conc.start s m w).app (Conc.start s m w).main_task
      (Conc.start s m w).worker_task r :=
    { res := hr
      op := hop
      lo := hlo
      hi := hhi
      th_calls := by simp [Conc.start]
      ot_calls := by simp [Conc.start]
      th_read := by intro v hv; simp [Conc.start] at hv
      ot_read := by intro v hv; simp [Conc.start] at hv
      mutex := by simp [Conc.start, hm]
      excl := by simp [Conc.start]
      sum := by simp [Conc.start] }
  obtain ⟨c, hrun, r1, hinv⟩ := Conc.run_inv (r.value + m + w) sched _ ⟨r, hstart⟩
  refine ⟨c, hrun, hinv.excl, hinv.mutex, fun hf => hinv.finished hf.1 hf.2, ?_⟩
  by_cases hw : c.worker_task.inside = false
  · obtain ⟨more, c2, k1, k2, k3, r2, k4⟩ :=
      Conc.finish_from (r.value + m + w) Caller.main_task c ⟨r1, hinv⟩ hw
    exact ⟨more, c2, k1, ⟨k2, k3⟩, k4.finished k2 k3⟩
  · have hmi : c.main_task.inside = false := by
      by_contra hx
      exact hinv.excl ⟨by simpa using hx, by simpa using hw⟩
    obtain ⟨more, c2, k1, k2, k3, r2, k4⟩ :=
      Conc.finish_from (r.value + m + w) Caller.worker_task c ⟨r1, hinv.symm⟩ hmi
    exact ⟨more, c2, k1, ⟨k3, k2⟩, k4.finished k2 k3⟩

/-- Witness for C2: two calls from the main task and one from the worker,
interleaved statement by statement, take the counter from 0 to 3. -/
theorem C2_no_lost_updates_witness :
    ∃ c, Conc.run [Caller.main_task, Caller.worker_task, Caller.main_task, Caller.worker_task,
        Caller.main_task, Caller.main_task, Caller.worker_task, Caller.main_task,
        Caller.worker_task, Caller.worker_task, Caller.worker_task, Caller.main_task,
        Caller.main_task, Caller.main_task, Caller.main_task]
        (Conc.start (App.with_counter 0) 2 1) = some c ∧
      c.finished ∧ counter_read c.app = some 3 := by
  obtain ⟨c, h1, _, _, h4, _⟩ := C2_no_lost_updates (App.with_counter 0) (counter_resource 0) 2 1
    [Caller.main_task, Caller.worker_task, Caller.main_task, Caller.worker_task,
      Caller.main_task, Caller.main_task, Caller.worker_task, Caller.main_task,
      Caller.worker_task, Caller.worker_task, Caller.worker_task, Caller.main_task,
      Caller.main_task, Caller.main_task, Caller.main_task]
    rfl rfl rfl (by decide) (by decide)
  have hcalls : (Conc.run [Caller.main_task, Caller.worker_task, Caller.main_task,
      Caller.worker_task, Caller.main_task, Caller.main_task, Caller.worker_task,
      Caller.main_task, Caller.worker_task, Caller.worker_task, Caller.worker_task,
      Caller.main_task, Caller.main_task, Caller.main_task, Caller.main_task]
      (Conc.start (App.with_counter 0) 2 1)).map
        (fun c => (c.main_task.calls, c.worker_task.calls)) = some (0, 0) := by
    decide
  rw [h1] at hcalls
  simp only [Option.map_some', Option.some.injEq, Prod.mk.injEq] at hcalls
  have hfin : c.finished := hcalls
  refine ⟨c, h1, hfin, ?_⟩
  have := h4 hfin
  simpa [counter_resource, create_resource] using this

end K66F
